import Mathlib

/-!
Shallow embedding of the OpenTTD-Terrain procedural terrain generator
(Python sources under `src/`): the parameter record and its
serialization (`src/core/terrain_params.py`), the preset manager
(`src/presets/preset_manager.py`), the five-stage generation pipeline
(`src/core/terrain_generator.py`), the preview-canvas zoom state
(`src/ui/preview_canvas.py`) and the texture colormap
(`src/utils/image_utils.py`).

Machine floats are modelled by `ℚ`; 2D arrays by `List (List ℚ)`.
Calls into the vendored numeric libraries that compute transcendental
functions or resampling (`np.random.RandomState`, `scipy.ndimage.zoom`,
`gaussian_filter`, `exp`, `sin`, `sqrt`, float `**`) are kept abstract
as fields of an `Ops` structure, so theorems quantify over every
behaviour of those library boundaries; concrete instances are supplied
for witnesses.
-/

namespace OTT

/-- Python `int(x)` on a float: truncation toward zero. -/
def pyTrunc (q : ℚ) : ℤ :=
  if 0 ≤ q then ⌊q⌋ else -⌊-q⌋

/-- Python `a // b` on ints: floor division (used with nonnegative operands). -/
def pyFloorDiv (a b : ℤ) : ℤ := Int.ediv a b

/-- `np.clip(x, lo, hi)` on a scalar. -/
def clipQ (x lo hi : ℚ) : ℚ := min hi (max lo x)

/-- Minimum of a list of rationals (`0` for the empty list, which the
code never produces at the places this is used). -/
def lmin : List ℚ → ℚ
  | [] => 0
  | x :: xs => xs.foldl min x

/-- Maximum of a list of rationals. -/
def lmax : List ℚ → ℚ
  | [] => 0
  | x :: xs => xs.foldl max x

/-- A heightmap / float array: row-major list of rows. -/
abbrev Grid := List (List ℚ)

/-- An integer region map. -/
abbrev RGrid := List (List ℕ)

def gmap (f : ℚ → ℚ) (g : Grid) : Grid := g.map (·.map f)

/-- Index-aware cell map (row index, column index, value). -/
def gmapIdx (f : ℕ → ℕ → ℚ → ℚ) (g : Grid) : Grid :=
  (g.enum).map fun yr => (yr.2.enum).map fun xv => f yr.1 xv.1 xv.2

/-- Pointwise binary operation on two grids (numpy broadcasting of
equal-shaped arrays; mismatched shapes are out of model and zip to the
common prefix). -/
def gzip (f : ℚ → ℚ → ℚ) (a b : Grid) : Grid :=
  (a.zip b).map fun rr => (rr.1.zip rr.2).map fun vv => f vv.1 vv.2

def gadd (a b : Grid) : Grid := gzip (· + ·) a b

def gmul (a b : Grid) : Grid := gzip (· * ·) a b

def gscale (c : ℚ) (g : Grid) : Grid := gmap (c * ·) g

def gconst (h w : ℕ) (v : ℚ) : Grid := List.replicate h (List.replicate w v)

def gridMin (g : Grid) : ℚ := lmin g.flatten

def gridMax (g : Grid) : ℚ := lmax g.flatten

def gridRange (g : Grid) : ℚ := gridMax g - gridMin g

/-- Number of rows (`shape[0]`). -/
def gRows (g : Grid) : ℕ := g.length

/-- Number of columns (`shape[1]`, read off the first row). -/
def gCols (g : Grid) : ℕ := (g.headD []).length

/-- Cell read, `some` when in bounds. -/
def cellAt (g : Grid) (y x : ℕ) : Option ℚ :=
  (g.get? y).bind (·.get? x)

/-- Cell read with default `0` (used where the code guarantees bounds). -/
def cellD (g : Grid) (y x : ℕ) : ℚ := ((g.getD y []).getD x 0)

/-- Cell write (no-op out of bounds, which the code never does). -/
def gset (g : Grid) (y x : ℕ) (v : ℚ) : Grid :=
  g.modify (fun row => row.set x v) y

/-- Crop to the first `h` rows and `w` columns (`a[:h, :w]`). -/
def gcrop (h w : ℕ) (g : Grid) : Grid := (g.take h).map (·.take w)

/-! ## Terrain parameters (`src/core/terrain_params.py`) -/

/-- Python values that can appear in a parameter dictionary. -/
inductive PVal where
  | pnull : PVal
  | pint : ℤ → PVal
  | pfloat : ℚ → PVal
  | pstr : String → PVal
  | pintlist : List ℤ → PVal
  | pinttuple : List ℤ → PVal
  deriving DecidableEq, Repr

/-- The dynamic type of the `size` attribute: Python distinguishes a
tuple from a list of ints, and — since neither the dataclass nor
`__post_init__` validates types — any other value is stored unchanged. -/
inductive SizeV where
  | tup : List ℤ → SizeV
  | lst : List ℤ → SizeV
  | other : PVal → SizeV
  deriving DecidableEq, Repr

/-- The `TerrainParams` dataclass. Floats are `ℚ`. -/
structure TerrainParams where
  size : SizeV
  seed : Option ℤ
  tectonic_uplift : ℚ
  tectonic_pattern : String
  rock_hardness : ℚ
  terrain_age : ℚ
  precipitation : ℚ
  temperature : ℚ
  wind_intensity : ℚ
  distance_to_coast : ℚ
  num_regions : ℤ
  region_contrast : ℚ
  erosion_iterations : ℤ
  river_intensity : ℚ
  glacial_intensity : ℚ
  deriving DecidableEq, Repr

/-- `TerrainParams.__post_init__`: coerce a list-typed size to a tuple,
normalize a seed of exactly `0` to absent. -/
def postInit (p : TerrainParams) : TerrainParams :=
  let p1 := match p.size with
    | SizeV.lst l => { p with size := SizeV.tup l }
    | _ => p
  if p1.seed = some 0 then { p1 with seed := none } else p1

/-- `TerrainParams()` with all defaults (runs `__post_init__`). -/
def defaultParams : TerrainParams :=
  postInit
    { size := SizeV.tup [1024, 1024]
      seed := none
      tectonic_uplift := 7/10
      tectonic_pattern := "convergent"
      rock_hardness := 1/2
      terrain_age := 7/10
      precipitation := 3/5
      temperature := 2/5
      wind_intensity := 3/10
      distance_to_coast := 1/2
      num_regions := 4
      region_contrast := 3/5
      erosion_iterations := 10
      river_intensity := 4/5
      glacial_intensity := 3/10 }

/-- JSON values appearing in serialized parameter documents. -/
inductive JVal where
  | jnull : JVal
  | jint : ℤ → JVal
  | jnum : ℚ → JVal
  | jstr : String → JVal
  | jintarr : List ℤ → JVal
  deriving DecidableEq, Repr

/-- `json.dumps` value encoding: both tuples and lists become arrays. -/
def jsonEncode : PVal → JVal
  | PVal.pnull => JVal.jnull
  | PVal.pint n => JVal.jint n
  | PVal.pfloat q => JVal.jnum q
  | PVal.pstr s => JVal.jstr s
  | PVal.pintlist l => JVal.jintarr l
  | PVal.pinttuple l => JVal.jintarr l

/-- `json.loads` value decoding: arrays come back as Python lists. -/
def jsonDecode : JVal → PVal
  | JVal.jnull => PVal.pnull
  | JVal.jint n => PVal.pint n
  | JVal.jnum q => PVal.pfloat q
  | JVal.jstr s => PVal.pstr s
  | JVal.jintarr l => PVal.pintlist l

def sizeToP : SizeV → PVal
  | SizeV.tup l => PVal.pinttuple l
  | SizeV.lst l => PVal.pintlist l
  | SizeV.other v => v

def seedToP : Option ℤ → PVal
  | none => PVal.pnull
  | some s => PVal.pint s

/-- `TerrainParams.to_dict` (`dataclasses.asdict`, field order). -/
def to_dict (p : TerrainParams) : List (String × PVal) :=
  [ ("size", sizeToP p.size)
  , ("seed", seedToP p.seed)
  , ("tectonic_uplift", PVal.pfloat p.tectonic_uplift)
  , ("tectonic_pattern", PVal.pstr p.tectonic_pattern)
  , ("rock_hardness", PVal.pfloat p.rock_hardness)
  , ("terrain_age", PVal.pfloat p.terrain_age)
  , ("precipitation", PVal.pfloat p.precipitation)
  , ("temperature", PVal.pfloat p.temperature)
  , ("wind_intensity", PVal.pfloat p.wind_intensity)
  , ("distance_to_coast", PVal.pfloat p.distance_to_coast)
  , ("num_regions", PVal.pint p.num_regions)
  , ("region_contrast", PVal.pfloat p.region_contrast)
  , ("erosion_iterations", PVal.pint p.erosion_iterations)
  , ("river_intensity", PVal.pfloat p.river_intensity)
  , ("glacial_intensity", PVal.pfloat p.glacial_intensity) ]

/-- `TerrainParams.to_json`: the parsed form of the emitted JSON text
(the string layer itself is the `json` library boundary). -/
def to_json (p : TerrainParams) : List (String × JVal) :=
  (to_dict p).map fun kv => (kv.1, jsonEncode kv.2)

/-- The declared dataclass field names. -/
def fieldNames : List String :=
  [ "size", "seed", "tectonic_uplift", "tectonic_pattern", "rock_hardness"
  , "terrain_age", "precipitation", "temperature", "wind_intensity"
  , "distance_to_coast", "num_regions", "region_contrast"
  , "erosion_iterations", "river_intensity", "glacial_intensity" ]

/-- First-match association lookup (Python dicts have unique keys). -/
def lookupP : List (String × PVal) → String → Option PVal
  | [], _ => none
  | kv :: rest, k => if kv.1 = k then some kv.2 else lookupP rest k

/-- Store a `size` value: a tuple or list of ints keeps its sequence
type; any other value is stored unchanged — no runtime type
validation happens anywhere on this field. -/
def decodeSize : PVal → Option SizeV
  | PVal.pinttuple l => some (SizeV.tup l)
  | PVal.pintlist l => some (SizeV.lst l)
  | v => some (SizeV.other v)

def decodeSeed : PVal → Option (Option ℤ)
  | PVal.pnull => some none
  | PVal.pint n => some (some n)
  | _ => none

def decodeFloat : PVal → Option ℚ
  | PVal.pfloat q => some q
  | PVal.pint n => some (n : ℚ)
  | _ => none

def decodeInt : PVal → Option ℤ
  | PVal.pint n => some n
  | _ => none

def decodeStr : PVal → Option String
  | PVal.pstr s => some s
  | _ => none

/-- Read one constructor argument: absent key falls back to the field
default, a present value must decode into the field type (values of
other Python types are outside this typed model). -/
def getField {α : Type} (d : List (String × PVal)) (k : String)
    (dec : PVal → Option α) (dflt : α) : Option α :=
  match lookupP d k with
  | none => some dflt
  | some v => dec v

/-- The raw record built by `cls(**data)` before `__post_init__`. -/
def buildParams (d : List (String × PVal)) : Option TerrainParams := do
  let size ← getField d "size" decodeSize (SizeV.tup [1024, 1024])
  let seed ← getField d "seed" decodeSeed none
  let tu ← getField d "tectonic_uplift" decodeFloat (7/10)
  let tp ← getField d "tectonic_pattern" decodeStr "convergent"
  let rh ← getField d "rock_hardness" decodeFloat (1/2)
  let ta ← getField d "terrain_age" decodeFloat (7/10)
  let pr ← getField d "precipitation" decodeFloat (3/5)
  let te ← getField d "temperature" decodeFloat (2/5)
  let wi ← getField d "wind_intensity" decodeFloat (3/10)
  let dc ← getField d "distance_to_coast" decodeFloat (1/2)
  let nr ← getField d "num_regions" decodeInt 4
  let rc ← getField d "region_contrast" decodeFloat (3/5)
  let ei ← getField d "erosion_iterations" decodeInt 10
  let ri ← getField d "river_intensity" decodeFloat (4/5)
  let gi ← getField d "glacial_intensity" decodeFloat (3/10)
  pure
    { size := size, seed := seed, tectonic_uplift := tu
      tectonic_pattern := tp, rock_hardness := rh, terrain_age := ta
      precipitation := pr, temperature := te, wind_intensity := wi
      distance_to_coast := dc, num_regions := nr, region_contrast := rc
      erosion_iterations := ei, river_intensity := ri
      glacial_intensity := gi }

/-- The `if isinstance(data['size'], list): data['size'] = tuple(...)`
coercion of `from_dict`. -/
def sizeCoerce : PVal → PVal
  | PVal.pintlist l => PVal.pinttuple l
  | v => v

/-- `TerrainParams.from_dict`: coerce a list-typed `size` to a tuple,
then call `cls(**data)` — which raises `TypeError` (here `none`) as soon
as the dictionary holds a key that is not a declared field. -/
def from_dict (d : List (String × PVal)) : Option TerrainParams :=
  if (d.map fun kv => if kv.1 = "size" then (kv.1, sizeCoerce kv.2) else kv).all
      (fun kv => fieldNames.contains kv.1) then
    (buildParams (d.map fun kv =>
      if kv.1 = "size" then (kv.1, sizeCoerce kv.2) else kv)).map postInit
  else none

/-- A present value is valid for its field when the typed decode (after
the `size` list-to-tuple coercion) succeeds. -/
def fieldDecoderOk (k : String) (v : PVal) : Prop :=
  if k = "size" then (decodeSize (sizeCoerce v)).isSome = true
  else if k = "seed" then (decodeSeed v).isSome = true
  else if k = "tectonic_pattern" then (decodeStr v).isSome = true
  else if k = "num_regions" ∨ k = "erosion_iterations" then
    (decodeInt v).isSome = true
  else (decodeFloat v).isSome = true

/-- Validity of an already-coerced value for its field. -/
def fieldDecoderPost (k : String) (v : PVal) : Prop :=
  if k = "size" then (decodeSize v).isSome = true
  else if k = "seed" then (decodeSeed v).isSome = true
  else if k = "tectonic_pattern" then (decodeStr v).isSome = true
  else if k = "num_regions" ∨ k = "erosion_iterations" then
    (decodeInt v).isSome = true
  else (decodeFloat v).isSome = true

/-- `TerrainParams.from_json`: parse (JSON arrays become lists), then
`from_dict`. -/
def from_json (doc : List (String × JVal)) : Option TerrainParams :=
  from_dict (doc.map fun kv => (kv.1, jsonDecode kv.2))

/-! ## Preset manager (`src/presets/preset_manager.py`) -/

/-- Raw `setattr` of one recognized field: the value is stored verbatim,
without `__post_init__` (so a list-typed `size` stays a list and a `0`
seed stays `0`). `none` models a value of a Python type outside this
typed record. -/
def setField (p : TerrainParams) (k : String) (v : PVal) :
    Option TerrainParams :=
  if k = "size" then (decodeSize v).map fun s => { p with size := s }
  else if k = "seed" then (decodeSeed v).map fun s => { p with seed := s }
  else if k = "tectonic_uplift" then
    (decodeFloat v).map fun q => { p with tectonic_uplift := q }
  else if k = "tectonic_pattern" then
    (decodeStr v).map fun s => { p with tectonic_pattern := s }
  else if k = "rock_hardness" then
    (decodeFloat v).map fun q => { p with rock_hardness := q }
  else if k = "terrain_age" then
    (decodeFloat v).map fun q => { p with terrain_age := q }
  else if k = "precipitation" then
    (decodeFloat v).map fun q => { p with precipitation := q }
  else if k = "temperature" then
    (decodeFloat v).map fun q => { p with temperature := q }
  else if k = "wind_intensity" then
    (decodeFloat v).map fun q => { p with wind_intensity := q }
  else if k = "distance_to_coast" then
    (decodeFloat v).map fun q => { p with distance_to_coast := q }
  else if k = "num_regions" then
    (decodeInt v).map fun n => { p with num_regions := n }
  else if k = "region_contrast" then
    (decodeFloat v).map fun q => { p with region_contrast := q }
  else if k = "erosion_iterations" then
    (decodeInt v).map fun n => { p with erosion_iterations := n }
  else if k = "river_intensity" then
    (decodeFloat v).map fun q => { p with river_intensity := q }
  else if k = "glacial_intensity" then
    (decodeFloat v).map fun q => { p with glacial_intensity := q }
  else some p

/-- The `for key, value in params_dict.items(): if hasattr(params, key):
setattr(params, key, value)` loop of `load_preset`. -/
def applySetattrs (p : TerrainParams) (d : List (String × PVal)) :
    Option TerrainParams :=
  d.foldlM
    (fun acc kv =>
      if fieldNames.contains kv.1 then setField acc kv.1 kv.2 else some acc)
    p

/-- `PresetManager.load_preset`: a missing file (`none` document) yields
`TerrainParams()`; otherwise recognized keys of the parsed JSON are
copied onto a fresh default record by raw `setattr`. -/
def loadPreset (doc : Option (List (String × JVal))) :
    Option TerrainParams :=
  match doc with
  | none => some defaultParams
  | some d =>
      applySetattrs defaultParams (d.map fun kv => (kv.1, jsonDecode kv.2))

/-! ## Preview-canvas zoom state (`src/ui/preview_canvas.py`) -/

/-- `wheelEvent`: in 2D mode multiply the zoom by 1.1 (scroll up) or 0.9
(scroll down) and clamp into `[0.1, 10.0]`; in 3D mode the wheel does
not change the zoom. -/
def wheelZoom (mode2D : Bool) (z : ℚ) (delta : ℤ) : ℚ :=
  if mode2D then
    let z2 := z * (if 0 < delta then 11/10 else 9/10)
    max (1/10) (min 10 z2)
  else z

/-- `keyPressEvent` on `+`: multiply by 1.1, no clamping. -/
def keyZoomIn (z : ℚ) : ℚ := z * (11/10)

/-- `keyPressEvent` on `-`: multiply by 0.9, no clamping. -/
def keyZoomOut (z : ℚ) : ℚ := z * (9/10)

/-- `PreviewCanvas.__init__`: initial zoom level. -/
def initialZoom : ℚ := 1

/-! ## Texture colormap (`src/utils/image_utils.py`, `generate_texture`) -/

/-- One RGB color. -/
abbrev RGB := ℤ × ℤ × ℤ

/-- A color ramp: (stop, color) pairs. -/
abbrev Ramp := List (ℚ × RGB)

def terrainRamp : Ramp :=
  [ (0, (10, 10, 80)), (2/10, (30, 30, 200)), (1/4, (240, 240, 100))
  , (35/100, (50, 180, 50)), (1/2, (34, 139, 34)), (7/10, (139, 90, 43))
  , (85/100, (100, 100, 100)), (1, (255, 255, 255)) ]

def desertRamp : Ramp :=
  [ (0, (210, 180, 140)), (7/10, (160, 120, 80)), (1, (255, 255, 255)) ]

def grayscaleRamp : Ramp :=
  [ (0, (0, 0, 0)), (1, (255, 255, 255)) ]

/-- Colormap selection; unknown names fall back to `terrain`. -/
def getRamp (name : String) : Ramp :=
  if name = "terrain" then terrainRamp
  else if name = "desert" then desertRamp
  else if name = "grayscale" then grayscaleRamp
  else terrainRamp

/-- Linear interpolation between two stops, with the code's `1e-8`
denominator guard and Python `int()` truncation per channel. -/
def interpColor (s1 s2 : ℚ × RGB) (v : ℚ) : RGB :=
  let t := (v - s1.1) / (s2.1 - s1.1 + 1/100000000)
  ( pyTrunc ((s1.2.1 : ℚ) * (1 - t) + (s2.2.1 : ℚ) * t)
  , pyTrunc ((s1.2.2.1 : ℚ) * (1 - t) + (s2.2.2.1 : ℚ) * t)
  , pyTrunc ((s1.2.2.2 : ℚ) * (1 - t) + (s2.2.2.2 : ℚ) * t) )

/-- The inner `for i in range(len(cmap)-1)` loop: first bracketing stop
pair (`stop_i <= h <= stop_{i+1}`) wins; `none` when no pair matches. -/
def rampLookup : Ramp → ℚ → Option RGB
  | s1 :: s2 :: rest, v =>
      if s1.1 ≤ v ∧ v ≤ s2.1 then some (interpColor s1 s2 v)
      else rampLookup (s2 :: rest) v
  | _, _ => none

/-- One texture pixel: the zero-initialized value `(0,0,0)` is left in
place when no stop pair brackets the elevation. -/
def texturePixel (name : String) (v : ℚ) : RGB :=
  match rampLookup (getRamp name) v with
  | some c => c
  | none => (0, 0, 0)

/-- `generate_texture`: per-pixel colormap application. -/
def generate_texture (hm : Grid) (name : String) : List (List RGB) :=
  hm.map (·.map (texturePixel name))

/-- Cell read on a texture. -/
def texAt (t : List (List RGB)) (y x : ℕ) : Option RGB :=
  (t.get? y).bind (·.get? x)

/-! ## Terrain generator (`src/core/terrain_generator.py`)

The generator calls into numpy/scipy for random sampling, cubic
resampling, Gaussian filtering and transcendental functions. Those
boundary calls are collected in `Ops`; `κ` is the state of one
`np.random.RandomState`. -/

structure Ops (κ : Type) where
  mkRS : ℤ → κ
  randn : κ → ℕ → ℕ → Grid × κ
  randint : κ → ℤ → ℤ → ℤ × κ
  uniform : κ → ℚ → ℚ → ℚ × κ
  zoom3 : Grid → ℚ → ℚ → Grid
  gaussF : Grid → ℚ → Grid
  exp : ℚ → ℚ
  sin : ℚ → ℚ
  cos : ℚ → ℚ
  sqrt : ℚ → ℚ
  rpow : ℚ → ℚ → ℚ
  pi : ℚ

/-- `TerrainGenerator._init_random`: an explicit seed is used as given;
an absent seed takes a fresh draw from the unseeded system source
(modelled by the `entropy` argument, the value `random.randint(0, 2**31-1)`
would return). Returns the reported seed and the seeded source. -/
def initRandom {κ : Type} (ops : Ops κ) (entropy : ℤ) :
    Option ℤ → ℤ × κ
  | none => (entropy, ops.mkRS entropy)
  | some s => (s, ops.mkRS s)

/-- The element list behind either size representation (a
non-sequence value cannot be indexed; the generator never receives
one). -/
def sizeList : SizeV → List ℤ
  | SizeV.tup l => l
  | SizeV.lst l => l
  | SizeV.other _ => []

/-- `params.size[i]`. -/
def sizeGet (p : TerrainParams) (i : ℕ) : ℤ := (sizeList p.size).getD i 0

/-- Rescale by `(x - min) / (max - min + 1e-8)` (the guarded
normalization ending the pattern generators, the erosion stage and
post-processing). -/
def normEps (g : Grid) : Grid :=
  gmap (fun v => (v - gridMin g) / (gridMax g - gridMin g + 1/100000000)) g

/-- `TerrainGenerator._perlin_noise_2d`: per octave, draw a small
`randn` grid of side `max(4, int(dim * scale / 2^o))`, upsample with
cubic `zoom`, crop, rescale that octave to `[-1,1]` when non-constant,
accumulate with amplitude `persistence^o`; finally rescale the sum to
`[0,1]` when non-constant. -/
def perlin {κ : Type} (ops : Ops κ) (r : κ) (shape : ℕ × ℕ)
    (scale : ℚ) (octaves : ℕ) (persistence : ℚ) : Grid × κ :=
  let h := shape.1
  let w := shape.2
  let st :=
    (List.range octaves).foldl
      (fun st o =>
        let freq : ℚ := 2 ^ o
        let amp : ℚ := persistence ^ o
        let osc := scale / freq
        let gsx := (max 4 (pyTrunc ((w : ℚ) * osc))).toNat
        let gsy := (max 4 (pyTrunc ((h : ℚ) * osc))).toNat
        let draw := ops.randn st.2 gsy gsx
        let z := ops.zoom3 draw.1 ((h : ℚ) / (gsy : ℚ)) ((w : ℚ) / (gsx : ℚ))
        let oc := gcrop h w z
        let onrm :=
          if gridMin oc < gridMax oc then
            gmap (fun v => (v - gridMin oc) / (gridMax oc - gridMin oc) * 2 - 1) oc
          else oc
        (gadd st.1 (gscale amp onrm), draw.2))
      (gconst h w 0, r)
  ( if gridMin st.1 < gridMax st.1 then
      gmap (fun v => (v - gridMin st.1) / (gridMax st.1 - gridMin st.1)) st.1
    else st.1
  , st.2 )

/-- Vertical ridge profile of `_generate_mountain_belt`: main Gaussian
bump masked beyond `4×` its width plus two offset secondary bumps at
weight 0.5 masked beyond `3×` theirs. -/
def vpAt {κ : Type} (ops : Ops κ) (mw : ℤ) (posY : ℤ) (y : ℕ) : ℚ :=
  let dy : ℤ := |(y : ℤ) - posY|
  let main :=
    if dy < mw * 4 then ops.exp (-((dy : ℚ) ^ 2) / (2 * (mw : ℚ) ^ 2)) else 0
  let sw : ℚ := (mw : ℚ) * (6/5)
  let so : ℤ := pyTrunc ((mw : ℚ) * (3/2))
  let dt : ℤ := |(y : ℤ) - (posY - so)|
  let db : ℤ := |(y : ℤ) - (posY + so)|
  let top :=
    if (dt : ℚ) < sw * 3 then (1/2) * ops.exp (-((dt : ℚ) ^ 2) / (2 * sw ^ 2)) else 0
  let bot :=
    if (db : ℚ) < sw * 3 then (1/2) * ops.exp (-((db : ℚ) ^ 2) / (2 * sw ^ 2)) else 0
  main + top + bot

/-- Along-strike variation of ridge `i`. -/
def lvAt {κ : Type} (ops : Ops κ) (w : ℕ) (i : ℕ) (x : ℕ) : ℚ :=
  ops.sin ((x : ℚ) / (w : ℚ) * ops.pi * 3) * (15/100) +
    ops.sin ((x : ℚ) / (w : ℚ) * ops.pi * 7 + (i : ℚ)) * (1/10) + 3/4

/-- `_generate_mountain_belt`. -/
def mountainBelt {κ : Type} (ops : Ops κ) (shape : ℕ × ℕ)
    (p : TerrainParams) (r : κ) : Grid × κ :=
  let h := shape.1
  let w := shape.2
  let num := (max 3 (3 + pyTrunc (p.tectonic_uplift * 6))).toNat
  let bw : ℚ := (h : ℚ) / ((num : ℚ) * 3)
  let mw : ℤ := pyTrunc (bw * (4/5 + p.tectonic_uplift * (2/5)))
  let posY : ℕ → ℤ := fun i =>
    if num = 1 then pyFloorDiv (h : ℤ) 2
    else pyTrunc ((h : ℚ) * ((i : ℚ) + 1) / ((num : ℚ) + 1))
  let struct : Grid :=
    (List.range h).map fun y => (List.range w).map fun x =>
      ((List.range num).map fun i => vpAt ops mw (posY i) y * lvAt ops w i x).sum
  let large := perlin ops r (h, w) (3/10) 3 (1/2)
  let medium := perlin ops large.2 (h, w) (1/10) 4 (1/2)
  let small := perlin ops medium.2 (h, w) (3/100) 2 (1/2)
  let comb :=
    gadd (gadd (gadd (gscale (7/10) struct) (gscale (15/100) large.1))
      (gscale (1/10) medium.1)) (gscale (1/20) small.1)
  (normEps (gmap (fun v => ops.rpow v (9/5)) comb), small.2)

/-- `_generate_rift_valley`. -/
def riftValley {κ : Type} (ops : Ops κ) (shape : ℕ × ℕ)
    (p : TerrainParams) (r : κ) : Grid × κ :=
  let h := shape.1
  let w := shape.2
  let rc : ℤ := pyFloorDiv (w : ℤ) 2
  let rw : ℤ := pyTrunc ((w : ℚ) * (1/10))
  let colV : ℕ → ℚ := fun x =>
    let d : ℤ := |(x : ℤ) - rc|
    if d < rw then -(ops.exp (-((d : ℚ) ^ 2) / ((rw : ℚ) ^ 2)))
    else ops.exp (-(((d : ℚ) - (rw : ℚ)) ^ 2) / (((rw : ℚ) * 2) ^ 2)) * (1/2)
  let base : Grid := (List.range h).map fun _ => (List.range w).map colV
  let withVolc :=
    if 3/5 < p.tectonic_uplift then
      let vn := perlin ops r (h, w) (1/20) 2 (1/2)
      (gadd base (gscale (3/10) vn.1), vn.2)
    else (base, r)
  (normEps withVolc.1, withVolc.2)

/-- `_generate_transform_boundary`. -/
def transformBoundary {κ : Type} (ops : Ops κ) (shape : ℕ × ℕ)
    (p : TerrainParams) (r : κ) : Grid × κ :=
  let h := shape.1
  let w := shape.2
  let nz := (2 + pyTrunc (p.tectonic_uplift * 3)).toNat
  let zc : ℕ → ℤ := fun z => pyTrunc ((h : ℚ) * ((z : ℚ) + 1) / ((nz : ℚ) + 1))
  let zw : ℤ := pyTrunc ((h : ℚ) * (1/20))
  let struct : Grid :=
    (List.range h).map fun y => (List.range w).map fun x =>
      ((List.range nz).map fun z =>
        let d : ℤ := |(y : ℤ) - zc z|
        if d < zw * 3 then
          ops.exp (-((d : ℚ) ^ 2) / (2 * (zw : ℚ) ^ 2)) *
            (if z % 2 = 0 then ops.sin ((x : ℚ) / (w : ℚ) * ops.pi * 8) * (1/2) + 1/2
             else ops.cos ((x : ℚ) / (w : ℚ) * ops.pi * 8) * (1/2) + 1/2)
        else 0).sum
  let detail := perlin ops r (h, w) (2/25) 4 (1/2)
  (normEps (gadd (gscale (3/5) struct) (gscale (2/5) detail.1)), detail.2)

/-- `_generate_stable_craton`: noise blend, smoothed for old terrain;
note this branch performs no final rescale. -/
def stableCraton {κ : Type} (ops : Ops κ) (shape : ℕ × ℕ)
    (p : TerrainParams) (r : κ) : Grid × κ :=
  let bn := perlin ops r shape (3/10) 1 (1/2)
  let dn := perlin ops bn.2 shape (1/20) 3 (1/2)
  let cr := gadd (gscale (4/5) bn.1) (gscale (1/5) dn.1)
  ( if p.terrain_age < 1/2 then ops.gaussF cr (2 + (1 - p.terrain_age) * 5)
    else cr
  , dn.2 )

/-- `_generate_hardness_map`. -/
def hardnessMap {κ : Type} (ops : Ops κ) (shape : ℕ × ℕ) (rh : ℚ)
    (r : κ) : Grid × κ :=
  let hn := perlin ops r shape (1/5) 2 (1/2)
  (gmap (fun v => v * (1/2) + rh * (1/2)) hn.1, hn.2)

/-- `TerrainGenerator.generate_tectonic_base`: seed the random source,
dispatch on the tectonic pattern, multiply by the hardness modulation
`0.7 + hardness*0.3` and by `uplift ** 0.8`. No rescale follows the two
multiplications. -/
def generate_tectonic_base {κ : Type} (ops : Ops κ) (entropy : ℤ)
    (p : TerrainParams) : Grid × κ :=
  let ir := initRandom ops entropy p.seed
  let h := (sizeGet p 1).toNat
  let w := (sizeGet p 0).toNat
  let base :=
    if p.tectonic_pattern = "convergent" then mountainBelt ops (h, w) p ir.2
    else if p.tectonic_pattern = "divergent" then riftValley ops (h, w) p ir.2
    else if p.tectonic_pattern = "transform" then transformBoundary ops (h, w) p ir.2
    else stableCraton ops (h, w) p ir.2
  let hard := hardnessMap ops (h, w) p.rock_hardness base.2
  let modulated := gmul base.1 (gmap (fun v => 7/10 + v * (3/10)) hard.1)
  (gscale (ops.rpow p.tectonic_uplift (4/5)) modulated, hard.2)

/-! ### Stage 2 — regions -/

/-- Cell read on a region map. -/
def rcell (g : RGrid) (y x : ℕ) : Option ℕ := (g.get? y).bind (·.get? x)

/-- `min(width, height) / (num_regions * 2)` (true division). -/
def minCenterDist (p : TerrainParams) : ℚ :=
  ((min (sizeGet p 0) (sizeGet p 1) : ℤ) : ℚ) / ((p.num_regions : ℚ) * 2)

/-- One rejection-sampling attempt loop (`while attempts < 100`):
draw `cx, cy` in the middle half, reject when closer than
`minCenterDist` to an existing center. -/
def tryPlace {κ : Type} (ops : Ops κ) (p : TerrainParams)
    (cs : List (ℤ × ℤ)) : ℕ → κ → Option (ℤ × ℤ) × κ
  | 0, r => (none, r)
  | fuel + 1, r =>
      let w := sizeGet p 0
      let h := sizeGet p 1
      let dx := ops.randint r (pyFloorDiv w 4) (pyFloorDiv (3 * w) 4)
      let dy := ops.randint dx.2 (pyFloorDiv h 4) (pyFloorDiv (3 * h) 4)
      let tooClose := cs.any fun c =>
        decide (ops.sqrt (((dx.1 - c.1 : ℤ) : ℚ) ^ 2 + ((dy.1 - c.2 : ℤ) : ℚ) ^ 2)
          < minCenterDist p)
      if tooClose then tryPlace ops p cs fuel dy.2
      else (some (dx.1, dy.1), dy.2)

/-- Deterministic grid fallback after 100 failed attempts
(`row = i // 2, col = i % 2`, positions at thirds). -/
def fallbackCenter (p : TerrainParams) (i : ℕ) : ℤ × ℤ :=
  ( pyTrunc (((sizeGet p 0) : ℚ) * (((i % 2 : ℕ) : ℚ) + 1) / 3)
  , pyTrunc (((sizeGet p 1) : ℚ) * (((i / 2 : ℕ) : ℚ) + 1) / 3) )

/-- Place the first `n` region centers in order. -/
def placeCenters {κ : Type} (ops : Ops κ) (p : TerrainParams) :
    ℕ → κ → List (ℤ × ℤ) × κ
  | 0, r => ([], r)
  | n + 1, r =>
      let prev := placeCenters ops p n r
      let att := tryPlace ops p prev.1 100 prev.2
      (prev.1 ++ [att.1.getD (fallbackCenter p n)], att.2)

/-- Per-region distance perturbation: drawn (and the source advanced)
only when `region_contrast > 0.3`, scaled by `region_contrast * 50`. -/
def regionPerturbs {κ : Type} (ops : Ops κ) (p : TerrainParams) :
    List (ℤ × ℤ) → κ → List ((ℤ × ℤ) × Option Grid) × κ
  | [], r => ([], r)
  | c :: rest, r =>
      if 3/10 < p.region_contrast then
        let n := perlin ops r ((sizeGet p 1).toNat, (sizeGet p 0).toNat) (1/10) 1 (1/2)
        let tail := regionPerturbs ops p rest n.2
        ((c, some (gscale (p.region_contrast * 50) n.1)) :: tail.1, tail.2)
      else
        let tail := regionPerturbs ops p rest r
        ((c, none) :: tail.1, tail.2)

/-- One region's (possibly perturbed) distance at one cell:
`sqrt((x-cx)^2 + (y-cy)^2)` plus the region's perturbation value. -/
def distTo {κ : Type} (ops : Ops κ) (c : ℤ × ℤ) (pert : Option Grid)
    (y x : ℕ) : ℚ :=
  ops.sqrt ((((x : ℤ) - c.1 : ℤ) : ℚ) ^ 2 + (((y : ℤ) - c.2 : ℤ) : ℚ) ^ 2) +
    match pert with
    | none => 0
    | some g => cellD g y x

/-- Per cell: the perturbed distance to each region center, tagged with
the region id. -/
def entriesAt {κ : Type} (ops : Ops κ)
    (rd : List ((ℤ × ℤ) × Option Grid)) (y x : ℕ) : List (ℕ × ℚ) :=
  rd.enum.map fun e => (e.1, distTo ops e.2.1 e.2.2 y x)

/-- One `mask = distances < region_distance` update at one cell:
distance `np.inf` is `none`, beaten by any finite distance. -/
def assignStep (st : ℕ × Option ℚ) (e : ℕ × ℚ) : ℕ × Option ℚ :=
  match st.2 with
  | none => (e.1, some e.2)
  | some c => if e.2 < c then (e.1, some e.2) else st

/-- The per-cell nearest-center resolution: region id 0 and distance
`np.inf` initially, updated on strict `<`. Each cell of the region map
is resolved independently, exactly as the array masks do. -/
def assignCell (entries : List (ℕ × ℚ)) : ℕ × Option ℚ :=
  entries.foldl assignStep (0, none)

/-- `TerrainGenerator.generate_regions`. -/
def generate_regions {κ : Type} (ops : Ops κ) (r : κ)
    (p : TerrainParams) : RGrid × κ :=
  let h := (sizeGet p 1).toNat
  let w := (sizeGet p 0).toNat
  if p.num_regions = 1 then (List.replicate h (List.replicate w 0), r)
  else
    let cs := placeCenters ops p p.num_regions.toNat r
    let rd := regionPerturbs ops p cs.1 cs.2
    ( (List.range h).map fun y => (List.range w).map fun x =>
        (assignCell (entriesAt ops rd.1 y x)).1
    , rd.2 )

/-! ### Stage 3 — climate -/

/-- `TerrainGenerator.generate_climate`: uniform base at
`precipitation`; per region a clamped uniform multiplier, then masked
noise at weight 0.2 and a whole-map clamp. -/
def generate_climate {κ : Type} (ops : Ops κ) (r : κ)
    (p : TerrainParams) (regions : RGrid) : Grid × κ :=
  let h := (sizeGet p 1).toNat
  let w := (sizeGet p 0).toNat
  let numRegions := regions.flatten.foldl max 0 + 1
  (List.range numRegions).foldl
    (fun st rid =>
      let u := ops.uniform st.2 (7/10) (13/10)
      let rp := clipQ (p.precipitation * u.1) 0 1
      let c1 := gmapIdx
        (fun y x old => if rcell regions y x = some rid then rp else old) st.1
      if regions.any (·.any fun v => decide (v = rid)) then
        let rn := perlin ops u.2 (h, w) (2/10) 1 (1/2)
        let c2 := gmapIdx
          (fun y x old =>
            if rcell regions y x = some rid then
              old + cellD (gscale (2/10) rn.1) y x
            else old) c1
        (gmap (fun v => clipQ v 0 1) c2, rn.2)
      else (c1, u.2))
    (gconst h w p.precipitation, r)

/-! ### Stage 4 — erosion -/

/-- `np.gradient` along axis 0 (rows): central differences inside,
one-sided at the borders. -/
def gradYAt (g : Grid) (y x : ℕ) : ℚ :=
  let n := gRows g
  if n ≤ 1 then 0
  else if y = 0 then cellD g 1 x - cellD g 0 x
  else if y = n - 1 then cellD g y x - cellD g (y - 1) x
  else (cellD g (y + 1) x - cellD g (y - 1) x) / 2

/-- `np.gradient` along axis 1 (columns). -/
def gradXAt (g : Grid) (y x : ℕ) : ℚ :=
  let n := gCols g
  if n ≤ 1 then 0
  else if x = 0 then cellD g y 1 - cellD g y 0
  else if x = n - 1 then cellD g y x - cellD g y (x - 1)
  else (cellD g y (x + 1) - cellD g y (x - 1)) / 2

/-- Slope magnitude `sqrt(dx^2 + dy^2)` at one cell. -/
def slopeAt {κ : Type} (ops : Ops κ) (g : Grid) (y x : ℕ) : ℚ :=
  ops.sqrt (gradXAt g y x ^ 2 + gradYAt g y x ^ 2)

/-- First index of the minimum (`np.argmin`, row-major). -/
def idxOfMin (l : List ℚ) : ℕ := l.findIdx fun v => decide (v = lmin l)

/-- The 3×3 neighborhood values out of the original heightmap. -/
def neighborhood (hm : Grid) (y x : ℕ) : List ℚ :=
  [ cellD hm (y - 1) (x - 1), cellD hm (y - 1) x, cellD hm (y - 1) (x + 1)
  , cellD hm y (x - 1), cellD hm y x, cellD hm y (x + 1)
  , cellD hm (y + 1) (x - 1), cellD hm (y + 1) x, cellD hm (y + 1) (x + 1) ]

/-- One visited cell of `_simulate_hydraulic_erosion`: skip the border;
when some 8-neighbor of the *original* heightmap is lower, remove
`slope * climate * intensity * 0.01` here and deposit half onto the
lowest neighbor. -/
def hydroVisit {κ : Type} (ops : Ops κ) (hm climate : Grid)
    (intensity : ℚ) (acc : Grid) (yx : ℕ × ℕ) : Grid :=
  let y := yx.1
  let x := yx.2
  let h := gRows hm
  let w := gCols hm
  if y = 0 ∨ y = h - 1 ∨ x = 0 ∨ x = w - 1 then acc
  else
    let nb := neighborhood hm y x
    if lmin nb < cellD hm y x then
      let amount := slopeAt ops hm y x * cellD climate y x * intensity * (1/100)
      let acc1 := gset acc y x (cellD acc y x - amount)
      let mp := idxOfMin nb
      let ty := y + mp / 3 - 1
      let tx := x + mp % 3 - 1
      gset acc1 ty tx (cellD acc1 ty tx + amount * (1/2))
    else acc

/-- `_simulate_hydraulic_erosion`: visit cells in descending elevation
order of the original heightmap (`np.argsort` reversed). Every visit
reads only the original heightmap and applies additive updates to the
output, so the visit order cannot change the result; ties in the sort
are unspecified in the source (unstable `np.argsort`). -/
def hydroSim {κ : Type} (ops : Ops κ) (hm climate : Grid)
    (intensity : ℚ) : Grid :=
  let h := gRows hm
  let w := gCols hm
  let cells := (List.range h).flatMap fun y => (List.range w).map fun x => (y, x)
  let sorted :=
    (cells.mergeSort fun a b => decide (cellD hm a.1 a.2 ≤ cellD hm b.1 b.2)).reverse
  sorted.foldl (hydroVisit ops hm climate intensity) hm

/-- `_simulate_thermal_weathering`: subtract `slope * rate`, rate 0.005
in the extreme-temperature bands and 0.001 otherwise. -/
def thermalSim {κ : Type} (ops : Ops κ) (hm : Grid) (temperature : ℚ) : Grid :=
  let rate : ℚ := if temperature < 3/10 ∨ 7/10 < temperature then 1/200 else 1/1000
  gmapIdx (fun y x v => v - slopeAt ops hm y x * rate) hm

/-- `_simulate_wind_erosion`: scanning each row, a cell higher than its
left neighbor loses `min(diff*0.1*wind, cell*0.05)`. -/
def windSim (hm : Grid) (wind : ℚ) : Grid :=
  gmapIdx
    (fun y x v =>
      if x = 0 then v
      else if cellD hm y (x - 1) < v then
        v - min ((v - cellD hm y (x - 1)) * (1/10) * wind) (v * (1/20))
      else v)
    hm

/-- Hydraulic sub-stage incl. its guard
(`precipitation > 0.1 and river_intensity > 0.1`). -/
def hydroStep {κ : Type} (ops : Ops κ) (p : TerrainParams)
    (climate hm : Grid) : Grid :=
  if 1/10 < p.precipitation ∧ 1/10 < p.river_intensity then
    hydroSim ops hm climate p.river_intensity
  else hm

/-- Thermal sub-stage incl. its guard (`temperature < 0.8`). -/
def thermalStep {κ : Type} (ops : Ops κ) (p : TerrainParams) (hm : Grid) : Grid :=
  if p.temperature < 4/5 then thermalSim ops hm p.temperature else hm

/-- Wind sub-stage incl. its guard
(`wind_intensity > 0.3 and precipitation < 0.4`). -/
def windStep (p : TerrainParams) (hm : Grid) : Grid :=
  if 3/10 < p.wind_intensity ∧ p.precipitation < 2/5 then
    windSim hm p.wind_intensity
  else hm

/-- One erosion iteration: hydraulic, then thermal, then wind. -/
def erosionPass {κ : Type} (ops : Ops κ) (p : TerrainParams)
    (climate hm : Grid) : Grid :=
  windStep p (thermalStep ops p (hydroStep ops p climate hm))

/-- `simulate_erosion` before its final rescale: `erosion_iterations`
passes, then the old-terrain blur. -/
def erosionPre {κ : Type} (ops : Ops κ) (hm : Grid) (p : TerrainParams)
    (climate : Grid) : Grid :=
  let e := (erosionPass ops p climate)^[p.erosion_iterations.toNat] hm
  if p.terrain_age < 1/2 then ops.gaussF e (2 + (1 - p.terrain_age) * 3) else e

/-- `TerrainGenerator.simulate_erosion` (the `regions` argument is
accepted and unused, as in the source). -/
def simulate_erosion {κ : Type} (ops : Ops κ) (hm : Grid)
    (p : TerrainParams) (climate : Grid) (_regions : RGrid) : Grid :=
  normEps (erosionPre ops hm p climate)

/-! ### Stage 5 — post-processing -/

/-- `min(x, width-1-x, y, height-1-y)`: distance to the nearest edge. -/
def minEdgeDist (h w : ℕ) (y x : ℕ) : ℤ :=
  min (min (x : ℤ) ((w : ℤ) - 1 - x)) (min (y : ℤ) ((h : ℤ) - 1 - y))

/-- `_create_coastal_mask` at one cell: normalized Chebyshev-style
distance to the nearest edge; ocean 0.1 below 0.1, coastal band 0.3
below 0.2, else land 1.0; forced 1.0 everywhere in the inland regime. -/
def coastalMaskAt (h w : ℕ) (d2c : ℚ) (y x : ℕ) : ℚ :=
  let nd : ℚ := ((minEdgeDist h w y x : ℤ) : ℚ) / ((min (w : ℤ) (h : ℤ) : ℤ) : ℚ) * 2
  if d2c < 3/10 then
    if nd < 1/10 then 1/10 else if nd < 2/10 then 3/10 else 1
  else if 7/10 < d2c then 1
  else 1

/-- `np.maximum(heightmap, 0)`. -/
def clampStage (hm : Grid) : Grid := gmap (fun v => max v 0) hm

/-- The coastal attenuation of `post_process`: only applied in the
coastal regime (`distance_to_coast < 0.3`), multiplying each cell by
`0.3 + mask*0.7`. -/
def coastalStage (p : TerrainParams) (hm : Grid) : Grid :=
  if p.distance_to_coast < 3/10 then
    gmapIdx
      (fun y x v =>
        v * (3/10 + coastalMaskAt (gRows hm) (gCols hm) p.distance_to_coast y x * (7/10)))
      hm
  else hm

/-- `post_process` before its final rescale: clamp negatives, coastal
attenuation, blend detail noise at weight 0.05. -/
def postPre {κ : Type} (ops : Ops κ) (r : κ) (hm : Grid)
    (p : TerrainParams) : Grid × κ :=
  let h1 := clampStage hm
  let h2 := coastalStage p h1
  let dn := perlin ops r (gRows hm, gCols hm) (1/50) 2 (1/2)
  (gadd (gscale (19/20) h2) (gscale (1/20) dn.1), dn.2)

/-- `TerrainGenerator.post_process`. -/
def post_process {κ : Type} (ops : Ops κ) (r : κ) (hm : Grid)
    (p : TerrainParams) : Grid × κ :=
  let pre := postPre ops r hm p
  (normEps pre.1, pre.2)

/-- The full generation pipeline in the worker's order
(`GenerationWorker.run`): tectonic base → regions → climate → erosion →
post-processing. -/
def generateTerrain {κ : Type} (ops : Ops κ) (entropy : ℤ)
    (p : TerrainParams) : Grid :=
  let base := generate_tectonic_base ops entropy p
  let regions := generate_regions ops base.2 p
  let climate := generate_climate ops regions.2 p regions.1
  let eroded := simulate_erosion ops base.1 p climate.1 regions.1
  (post_process ops climate.2 eroded p).1

/-! ## Concrete boundary instances

Executable stand-ins for the numpy/scipy boundary, used to evaluate the
embedding at concrete inputs. Each witness or counterexample below only
relies on boundary values where these instances agree with the real
libraries (for example `x ** 0.8` at `x = 1`, or the fact that a
`randn` draw is some finite grid of reals). -/

/-- A rational square-root approximation: exact on perfect squares,
`0` on nonpositive input, always positive on positive input. -/
def ratSqrt (q : ℚ) : ℚ :=
  if q ≤ 0 then 0 else ((Nat.sqrt (q.num.toNat * q.den) : ℚ) / (q.den : ℚ))

/-- A varying pseudo-random grid derived from a counter state. -/
def cGrid (s m n : ℕ) : Grid :=
  (List.range m).map fun i => (List.range n).map fun j => ((s + i * n + j : ℕ) : ℚ)

/-- Nearest-neighbor resampling to `round(dim * factor)` (the output
shape scipy's `zoom` produces; the sample values stand in for cubic
interpolation). -/
def cZoom (g : Grid) (fy fx : ℚ) : Grid :=
  let gh := g.length
  let gw := (g.headD []).length
  let th := (pyTrunc ((gh : ℚ) * fy + 1/2)).toNat
  let tw := (pyTrunc ((gw : ℚ) * fx + 1/2)).toNat
  (List.range th).map fun i => (List.range tw).map fun j =>
    cellD g (i * gh / max 1 th) (j * gw / max 1 tw)

/-- Counter-state boundary instance with varying `randn` grids. -/
def cOps : Ops ℕ where
  mkRS := fun s => s.toNat
  randn := fun s m n => (cGrid s m n, s + 1)
  randint := fun s lo hi => (lo + (s : ℤ) % (max 1 (hi - lo)), s + 1)
  uniform := fun s lo hi => ((lo + hi) / 2, s + 1)
  zoom3 := cZoom
  gaussF := fun g _ => g
  exp := fun x => 1 + x
  sin := fun _ => 0
  cos := fun _ => 0
  sqrt := ratSqrt
  rpow := fun x _ => x
  pi := 355/113

/-- Boundary instance whose `randn` draws are constant grids (a
possible draw shape), used to exhibit a constant noise field. -/
def kOps : Ops ℕ where
  mkRS := fun s => s.toNat
  randn := fun s m n => (gconst m n (s : ℚ), s + 1)
  randint := fun s lo hi => (lo + (s : ℤ) % (max 1 (hi - lo)), s + 1)
  uniform := fun s lo hi => ((lo + hi) / 2, s + 1)
  zoom3 := cZoom
  gaussF := fun g _ => g
  exp := fun x => 1 + x
  sin := fun _ => 0
  cos := fun _ => 0
  sqrt := ratSqrt
  rpow := fun x _ => x
  pi := 355/113

/-! ## Concrete inputs used by witnesses and counterexamples -/

/-- 6×2 map, two regions, default contrast 0.6 (perturbation active). -/
def pRegions : TerrainParams :=
  { defaultParams with
      size := SizeV.tup [6, 2]
      num_regions := 2 }

/-- 6×2 map, two regions, contrast 0.3 (no perturbation). -/
def pRegionsFlat : TerrainParams :=
  { defaultParams with
      size := SizeV.tup [6, 2]
      num_regions := 2
      region_contrast := 3/10 }

/-- 4×4 stable-craton run at full uplift and zero rock hardness. -/
def pStable : TerrainParams :=
  { defaultParams with
      size := SizeV.tup [4, 4]
      tectonic_pattern := "stable"
      tectonic_uplift := 1
      rock_hardness := 0
      terrain_age := 7/10
      seed := some 7 }

/-- 2×2 seeded stable run with every erosion sub-stage disabled. -/
def pQuiet : TerrainParams :=
  { defaultParams with
      size := SizeV.tup [2, 2]
      tectonic_pattern := "stable"
      seed := some 42
      precipitation := 0
      temperature := 9/10
      wind_intensity := 0
      terrain_age := 7/10
      erosion_iterations := 1
      distance_to_coast := 1/2 }

/-- Coastal parameter record (`distance_to_coast = 0.1`). -/
def pCoast : TerrainParams := { defaultParams with distance_to_coast := 1/10 }

/-- Inland parameter record (`distance_to_coast = 0.9`). -/
def pInland : TerrainParams := { defaultParams with distance_to_coast := 9/10 }

/-- A small non-constant 2×2 heightmap. -/
def hmSmall : Grid := [[0, 1], [0, 0]]

/-- A 100×100 constant heightmap. -/
def hmFlat100 : Grid := gconst 100 100 (1/2)

/-! # Theorems -/

/-! ### Shared helper lemmas -/

theorem lookupP_mem : ∀ {d : List (String × PVal)} {k : String} {v : PVal},
    lookupP d k = some v → (k, v) ∈ d := by
  intro d
  induction d with
  | nil => intro k v h; simp [lookupP] at h
  | cons kv rest ih =>
      intro k v h
      by_cases hk : kv.1 = k
      · rw [lookupP, if_pos hk] at h
        have hv : kv.2 = v := by injection h
        have : (k, v) = kv := by cases kv; simp_all
        rw [this]; exact List.mem_cons_self _ _
      · rw [lookupP, if_neg hk] at h
        exact List.mem_cons_of_mem _ (ih h)

theorem getField_isSome {α : Type} (d : List (String × PVal)) (k : String)
    (dec : PVal → Option α) (dflt : α)
    (h : ∀ v, lookupP d k = some v → (dec v).isSome = true) :
    (getField d k dec dflt).isSome = true := by
  unfold getField
  cases hl : lookupP d k with
  | none => rfl
  | some v => exact h v hl

/-- Looking a key up after the `size` coercion map of `from_dict`. -/
theorem lookupP_sizeCoerce :
    ∀ {d : List (String × PVal)} {k : String} {v : PVal},
    lookupP (d.map fun kv => if kv.1 = "size" then (kv.1, sizeCoerce kv.2) else kv)
        k = some v →
    ∃ v0, lookupP d k = some v0 ∧
      ((k = "size" ∧ v = sizeCoerce v0) ∨ (k ≠ "size" ∧ v = v0)) := by
  intro d
  induction d with
  | nil => intro k v h; simp [lookupP] at h
  | cons kv rest ih =>
      intro k v h
      by_cases hk : kv.1 = k
      · by_cases hs : kv.1 = "size"
        · rw [List.map_cons, if_pos hs, lookupP, if_pos hk] at h
          have hv : sizeCoerce kv.2 = v := by injection h
          exact ⟨kv.2, by rw [lookupP, if_pos hk],
            Or.inl ⟨by rw [← hk, hs], hv.symm⟩⟩
        · rw [List.map_cons, if_neg hs] at h
          rw [lookupP, if_pos hk] at h
          have hv : kv.2 = v := by injection h
          exact ⟨kv.2, by rw [lookupP, if_pos hk],
            Or.inr ⟨by rw [← hk]; exact hs, hv.symm⟩⟩
      · have hstep :
            lookupP (rest.map fun kv =>
              if kv.1 = "size" then (kv.1, sizeCoerce kv.2) else kv) k = some v := by
          by_cases hs : kv.1 = "size"
          · rwa [List.map_cons, if_pos hs, lookupP, if_neg hk] at h
          · rwa [List.map_cons, if_neg hs, lookupP, if_neg hk] at h
        obtain ⟨v0, hv0, hcase⟩ := ih hstep
        exact ⟨v0, by rw [lookupP, if_neg hk]; exact hv0, hcase⟩

/-- `__post_init__` keeps a tuple-typed size unchanged. -/
theorem postInit_keeps_tup (q : TerrainParams) (l : List ℤ)
    (h : q.size = SizeV.tup l) : (postInit q).size = SizeV.tup l := by
  unfold postInit
  simp only [h]
  split <;> simp [h]

/-- Looking the `size` key up after the coercion map of `from_dict`,
forward direction. -/
theorem lookupP_sizeCoerce_fwd :
    ∀ {d : List (String × PVal)} {v : PVal}, lookupP d "size" = some v →
      lookupP (d.map fun kv =>
        if kv.1 = "size" then (kv.1, sizeCoerce kv.2) else kv) "size" =
        some (sizeCoerce v) := by
  intro d
  induction d with
  | nil => intro v h; simp [lookupP] at h
  | cons kv rest ih =>
      intro v h
      by_cases hk : kv.1 = "size"
      · rw [lookupP, if_pos hk] at h
        injection h with h
        rw [List.map_cons, if_pos hk, lookupP, if_pos hk, h]
      · rw [lookupP, if_neg hk] at h
        rw [List.map_cons, if_neg hk, lookupP, if_neg hk]
        exact ih h

/-- An absent `size` key stays absent through the coercion map. -/
theorem lookupP_sizeCoerce_none :
    ∀ {d : List (String × PVal)}, lookupP d "size" = none →
      lookupP (d.map fun kv =>
        if kv.1 = "size" then (kv.1, sizeCoerce kv.2) else kv) "size" = none := by
  intro d
  induction d with
  | nil => intro _; rfl
  | cons kv rest ih =>
      intro h
      by_cases hk : kv.1 = "size"
      · rw [lookupP, if_pos hk] at h
        cases h
      · rw [lookupP, if_neg hk] at h
        rw [List.map_cons, if_neg hk, lookupP, if_neg hk]
        exact ih h

/-- The record built by `cls(**data)` carries exactly the looked-up
`size` value. -/
theorem buildParams_size (d : List (String × PVal)) (q : TerrainParams)
    (h : buildParams d = some q) :
    getField d "size" decodeSize (SizeV.tup [1024, 1024]) = some q.size := by
  unfold buildParams at h
  obtain ⟨v1, h1, h⟩ := Option.bind_eq_some.mp h
  obtain ⟨v2, h2, h⟩ := Option.bind_eq_some.mp h
  obtain ⟨v3, h3, h⟩ := Option.bind_eq_some.mp h
  obtain ⟨v4, h4, h⟩ := Option.bind_eq_some.mp h
  obtain ⟨v5, h5, h⟩ := Option.bind_eq_some.mp h
  obtain ⟨v6, h6, h⟩ := Option.bind_eq_some.mp h
  obtain ⟨v7, h7, h⟩ := Option.bind_eq_some.mp h
  obtain ⟨v8, h8, h⟩ := Option.bind_eq_some.mp h
  obtain ⟨v9, h9, h⟩ := Option.bind_eq_some.mp h
  obtain ⟨v10, h10, h⟩ := Option.bind_eq_some.mp h
  obtain ⟨v11, h11, h⟩ := Option.bind_eq_some.mp h
  obtain ⟨v12, h12, h⟩ := Option.bind_eq_some.mp h
  obtain ⟨v13, h13, h⟩ := Option.bind_eq_some.mp h
  obtain ⟨v14, h14, h⟩ := Option.bind_eq_some.mp h
  obtain ⟨v15, h15, h⟩ := Option.bind_eq_some.mp h
  injection h with h
  rw [h1, ← h]

/-! ### C4 — parameter serialization round-trip -/

/-- C4: a Terrain Parameters record with an absent (or nonzero) seed
and a 2-tuple size survives `to_json` followed by `from_json` exactly,
field by field. -/
theorem params_json_roundtrip (p : TerrainParams)
    (hseed : p.seed = none ∨ ∃ s, s ≠ 0 ∧ p.seed = some s)
    (a b : ℤ) (hsize : p.size = SizeV.tup [a, b]) :
    from_json (to_json p) = some p := by
  obtain ⟨sz, sd, tu, tp, rh, ta, pr, te, wi, dc, nr, rc, ei, ri, gi⟩ := p
  subst hsize
  rcases hseed with h | ⟨s, hs, h⟩ <;> subst h
  · simp [from_json, to_json, to_dict, jsonEncode, jsonDecode, from_dict,
      sizeCoerce, buildParams, getField, lookupP, sizeToP, seedToP,
      decodeSize, decodeSeed, decodeFloat, decodeInt, decodeStr, postInit,
      fieldNames]
  · simp [from_json, to_json, to_dict, jsonEncode, jsonDecode, from_dict,
      sizeCoerce, buildParams, getField, lookupP, sizeToP, seedToP,
      decodeSize, decodeSeed, decodeFloat, decodeInt, decodeStr, postInit,
      fieldNames, hs]

/-- C4 witness: the default record (absent seed, 2-tuple size). -/
theorem params_json_roundtrip_witness :
    (defaultParams.seed = none ∨ ∃ s, s ≠ 0 ∧ defaultParams.seed = some s) ∧
      defaultParams.size = SizeV.tup [1024, 1024] ∧
      from_json (to_json defaultParams) = some defaultParams :=
  ⟨Or.inl rfl, rfl,
    params_json_roundtrip defaultParams (Or.inl rfl) 1024 1024 rfl⟩

/-! ### C5 — tolerance of `from_dict` (corrected) -/

/-- C5 counterexample: a dictionary with a single unrecognized key (its
recognized entries are vacuously valid) makes `from_dict` fail with a
`TypeError` (`none`) instead of being ignored. -/
theorem from_dict_unknown_key_fails :
    from_dict [("mystery_field", PVal.pint 1)] = none ∧
      from_dict [] = some defaultParams := by
  exact ⟨rfl, rfl⟩

/-- `buildParams` succeeds when every present value decodes for its
key (after the size coercion has already been applied). -/
theorem buildParams_isSome (d : List (String × PVal))
    (h : ∀ k v, lookupP d k = some v → fieldDecoderPost k v) :
    (buildParams d).isSome = true := by
  have g1 := getField_isSome d "size" decodeSize (SizeV.tup [1024, 1024])
    (fun v hv => by simpa [fieldDecoderPost] using h _ v hv)
  have g2 := getField_isSome d "seed" decodeSeed none
    (fun v hv => by simpa [fieldDecoderPost] using h _ v hv)
  have g3 := getField_isSome d "tectonic_uplift" decodeFloat (7/10)
    (fun v hv => by simpa [fieldDecoderPost] using h _ v hv)
  have g4 := getField_isSome d "tectonic_pattern" decodeStr "convergent"
    (fun v hv => by simpa [fieldDecoderPost] using h _ v hv)
  have g5 := getField_isSome d "rock_hardness" decodeFloat (1/2)
    (fun v hv => by simpa [fieldDecoderPost] using h _ v hv)
  have g6 := getField_isSome d "terrain_age" decodeFloat (7/10)
    (fun v hv => by simpa [fieldDecoderPost] using h _ v hv)
  have g7 := getField_isSome d "precipitation" decodeFloat (3/5)
    (fun v hv => by simpa [fieldDecoderPost] using h _ v hv)
  have g8 := getField_isSome d "temperature" decodeFloat (2/5)
    (fun v hv => by simpa [fieldDecoderPost] using h _ v hv)
  have g9 := getField_isSome d "wind_intensity" decodeFloat (3/10)
    (fun v hv => by simpa [fieldDecoderPost] using h _ v hv)
  have g10 := getField_isSome d "distance_to_coast" decodeFloat (1/2)
    (fun v hv => by simpa [fieldDecoderPost] using h _ v hv)
  have g11 := getField_isSome d "num_regions" decodeInt 4
    (fun v hv => by simpa [fieldDecoderPost] using h _ v hv)
  have g12 := getField_isSome d "region_contrast" decodeFloat (3/5)
    (fun v hv => by simpa [fieldDecoderPost] using h _ v hv)
  have g13 := getField_isSome d "erosion_iterations" decodeInt 10
    (fun v hv => by simpa [fieldDecoderPost] using h _ v hv)
  have g14 := getField_isSome d "river_intensity" decodeFloat (4/5)
    (fun v hv => by simpa [fieldDecoderPost] using h _ v hv)
  have g15 := getField_isSome d "glacial_intensity" decodeFloat (3/10)
    (fun v hv => by simpa [fieldDecoderPost] using h _ v hv)
  obtain ⟨v1, e1⟩ := Option.isSome_iff_exists.mp g1
  obtain ⟨v2, e2⟩ := Option.isSome_iff_exists.mp g2
  obtain ⟨v3, e3⟩ := Option.isSome_iff_exists.mp g3
  obtain ⟨v4, e4⟩ := Option.isSome_iff_exists.mp g4
  obtain ⟨v5, e5⟩ := Option.isSome_iff_exists.mp g5
  obtain ⟨v6, e6⟩ := Option.isSome_iff_exists.mp g6
  obtain ⟨v7, e7⟩ := Option.isSome_iff_exists.mp g7
  obtain ⟨v8, e8⟩ := Option.isSome_iff_exists.mp g8
  obtain ⟨v9, e9⟩ := Option.isSome_iff_exists.mp g9
  obtain ⟨v10, e10⟩ := Option.isSome_iff_exists.mp g10
  obtain ⟨v11, e11⟩ := Option.isSome_iff_exists.mp g11
  obtain ⟨v12, e12⟩ := Option.isSome_iff_exists.mp g12
  obtain ⟨v13, e13⟩ := Option.isSome_iff_exists.mp g13
  obtain ⟨v14, e14⟩ := Option.isSome_iff_exists.mp g14
  obtain ⟨v15, e15⟩ := Option.isSome_iff_exists.mp g15
  simp only [buildParams, e1, e2, e3, e4, e5, e6, e7, e8, e9, e10, e11, e12,
    e13, e14, e15]
  rfl

/-- C5 amended: a dictionary whose keys are all recognized field names
with valid values is accepted by `from_dict`; missing keys take the
defaults and a list-typed size is coerced to a tuple — but unknown keys
are an error, not ignored (see the counterexample). -/
theorem from_dict_accepts (d : List (String × PVal))
    (h : ∀ kv ∈ d, fieldNames.contains kv.1 = true ∧ fieldDecoderOk kv.1 kv.2) :
    (from_dict d).isSome = true ∧
      from_dict [] = some defaultParams ∧
      from_dict [("size", PVal.pintlist [3, 4])] =
        some { defaultParams with size := SizeV.tup [3, 4] } := by
  refine ⟨?_, rfl, rfl⟩
  unfold from_dict
  have hall : (d.map fun kv =>
      if kv.1 = "size" then (kv.1, sizeCoerce kv.2) else kv).all
        (fun kv => fieldNames.contains kv.1) = true := by
    rw [List.all_eq_true]
    intro kv2 h2
    obtain ⟨kv, hkv, hmapped⟩ := List.mem_map.mp h2
    have hk := (h kv hkv).1
    by_cases hs : kv.1 = "size"
    · rw [if_pos hs] at hmapped; rw [← hmapped]; exact hk
    · rw [if_neg hs] at hmapped; rw [← hmapped]; exact hk
  rw [if_pos hall, Option.isSome_map']
  apply buildParams_isSome
  intro k v hv
  obtain ⟨v0, hv0, hcase⟩ := lookupP_sizeCoerce hv
  have hok := (h (k, v0) (lookupP_mem hv0)).2
  rcases hcase with ⟨hk, rfl⟩ | ⟨hk, rfl⟩
  · subst hk
    simpa [fieldDecoderOk, fieldDecoderPost] using hok
  · unfold fieldDecoderOk at hok
    unfold fieldDecoderPost
    rw [if_neg hk] at hok
    rw [if_neg hk]
    exact hok

/-- C5 witness: a single-field valid dictionary. -/
theorem from_dict_accepts_witness :
    (∀ kv ∈ [("precipitation", PVal.pfloat (1/4))],
        fieldNames.contains kv.1 = true ∧ fieldDecoderOk kv.1 kv.2) ∧
      (from_dict [("precipitation", PVal.pfloat (1/4))]).isSome = true :=
  ⟨by simp [fieldNames, fieldDecoderOk, decodeFloat],
    (from_dict_accepts [("precipitation", PVal.pfloat (1/4))]
      (by simp [fieldNames, fieldDecoderOk, decodeFloat])).1⟩

/-! ### C8 — size invariant (corrected) -/

/-- C8 counterexample: `load_preset` on a document with a (JSON, hence
list-valued) `size` key copies the list verbatim — the resulting record
does not hold a 2-tuple size. -/
theorem loadPreset_list_size :
    loadPreset (some [("size", JVal.jintarr [512, 512])]) =
      some { defaultParams with size := SizeV.lst [512, 512] } ∧
      ∀ l, SizeV.lst [512, 512] ≠ SizeV.tup l := by
  exact ⟨rfl, fun l h => by cases h⟩

/-- C8 amended: only the default construction guarantees a 2-tuple of
positive integers. `from_dict` coerces a list-typed `size` to a tuple
of the same (unvalidated) elements and an absent key keeps the default
tuple, but a non-sequence `size` value is stored unchanged (the
dataclass performs no runtime type validation), and `load_preset`
copies even a list-typed size verbatim (see the counterexample). -/
theorem size_invariant_amended :
    (∃ a b, defaultParams.size = SizeV.tup [a, b] ∧ 0 < a ∧ 0 < b) ∧
      (∀ d q l, from_dict d = some q →
        lookupP d "size" = some (PVal.pintlist l) → q.size = SizeV.tup l) ∧
      (∀ d q, from_dict d = some q →
        lookupP d "size" = none → q.size = SizeV.tup [1024, 1024]) ∧
      from_dict [("size", PVal.pint 5)] =
        some { defaultParams with size := SizeV.other (PVal.pint 5) } ∧
      (∀ l, SizeV.other (PVal.pint 5) ≠ SizeV.tup l) ∧
      loadPreset none = some defaultParams := by
  refine ⟨⟨1024, 1024, rfl, by norm_num, by norm_num⟩, ?_, ?_, ?_, ?_, ?_⟩
  case refine_3 => rfl
  case refine_4 => exact fun l h => SizeV.noConfusion h
  case refine_5 => rfl
  · intro d q l hq hlook
    unfold from_dict at hq
    split at hq
    · obtain ⟨q0, hq0, rfl⟩ := Option.map_eq_some'.mp hq
      have hl2 := lookupP_sizeCoerce_fwd hlook
      have hsz := buildParams_size _ _ hq0
      unfold getField at hsz
      rw [hl2] at hsz
      simp only [sizeCoerce, decodeSize, Option.some.injEq] at hsz
      exact postInit_keeps_tup q0 l hsz.symm
    · cases hq
  · intro d q hq hlook
    unfold from_dict at hq
    split at hq
    · obtain ⟨q0, hq0, rfl⟩ := Option.map_eq_some'.mp hq
      have hl2 := lookupP_sizeCoerce_none hlook
      have hsz := buildParams_size _ _ hq0
      unfold getField at hsz
      rw [hl2] at hsz
      injection hsz with hsz
      exact postInit_keeps_tup q0 _ hsz.symm
    · cases hq

/-! ### C9 — zoom bound (corrected) -/

/-- C9 counterexample: the zoom reaches the in-range value 10 through a
clamped wheel step, after which one `+` key press leaves `[0.1, 10]`. -/
theorem keyZoom_breaks_bound :
    (1/10 ≤ (19/2 : ℚ) ∧ (19/2 : ℚ) ≤ 10) ∧
      wheelZoom true (19/2) 1 = 10 ∧
      keyZoomIn (wheelZoom true (19/2) 1) = 11 ∧
      ¬ keyZoomIn (wheelZoom true (19/2) 1) ≤ 10 := by
  have hw : wheelZoom true (19/2) 1 = 10 := by
    norm_num [wheelZoom, min_def, max_def]
  refine ⟨⟨by norm_num, by norm_num⟩, hw, ?_, ?_⟩
  · rw [hw]; norm_num [keyZoomIn]
  · rw [hw]; norm_num [keyZoomIn]

/-- C9 amended: the scroll-wheel handler keeps the zoom level inside
`[0.1, 10]` (in 3D mode it leaves it unchanged); the keyboard `+`/`-`
handlers multiply by the same 1.1/0.9 factors but never clamp, so they
can leave the interval. -/
theorem wheelZoom_bounded (mode2D : Bool) (z : ℚ) (delta : ℤ)
    (h1 : 1/10 ≤ z) (h2 : z ≤ 10) :
    1/10 ≤ wheelZoom mode2D z delta ∧ wheelZoom mode2D z delta ≤ 10 := by
  unfold wheelZoom
  split
  · exact ⟨le_max_left _ _, max_le (by norm_num) (min_le_left _ _)⟩
  · exact ⟨h1, h2⟩

/-- C9 witness for the amended bound. -/
theorem wheelZoom_bounded_witness :
    (1/10 ≤ (1 : ℚ) ∧ (1 : ℚ) ≤ 10) ∧
      (1/10 ≤ wheelZoom true 1 1 ∧ wheelZoom true 1 1 ≤ 10) :=
  ⟨⟨by norm_num, by norm_num⟩, wheelZoom_bounded true 1 1 (by norm_num) (by norm_num)⟩

/-! ### C10 — out-of-range elevations stay black -/

theorem cellAt_gmap (f : ℚ → ℚ) (g : Grid) (y x : ℕ) :
    cellAt (gmap f g) y x = (cellAt g y x).map f := by
  unfold cellAt gmap
  rw [List.get?_map]
  cases g.get? y with
  | none => rfl
  | some row => simp [List.get?_map]

theorem cellAt_gmapIdx (f : ℕ → ℕ → ℚ → ℚ) (g : Grid) (y x : ℕ) :
    cellAt (gmapIdx f g) y x = (cellAt g y x).map (f y x) := by
  unfold cellAt gmapIdx
  rw [List.get?_map, List.get?_enum]
  cases g.get? y with
  | none => rfl
  | some row =>
      simp only [Option.map_some', Option.some_bind]
      rw [List.get?_map, List.get?_enum]
      cases row.get? x <;> rfl

theorem texAt_generate_texture (name : String) (hm : Grid) (y x : ℕ) :
    texAt (generate_texture hm name) y x =
      (cellAt hm y x).map (texturePixel name) := by
  unfold texAt generate_texture cellAt
  rw [List.get?_map]
  cases hm.get? y with
  | none => rfl
  | some row => simp [List.get?_map]

/-- No stop pair of a ramp whose stops lie in `[0,1]` brackets an
elevation strictly outside `[0,1]`. -/
theorem rampLookup_out_of_range (v : ℚ) (hv : v < 0 ∨ 1 < v) :
    ∀ r : Ramp, (∀ s ∈ r, 0 ≤ s.1 ∧ s.1 ≤ 1) → rampLookup r v = none := by
  intro r
  induction r with
  | nil => intro _; rfl
  | cons a t ih =>
      intro hst
      cases t with
      | nil => rfl
      | cons b t2 =>
          rw [rampLookup, if_neg]
          · exact ih fun s hs => hst s (List.mem_cons_of_mem _ hs)
          · rintro ⟨h1, h2⟩
            have ha := hst a (List.mem_cons_self _ _)
            have hb := hst b (List.mem_cons_of_mem _ (List.mem_cons_self _ _))
            rcases hv with hv | hv
            · linarith [ha.1]
            · linarith [hb.2]

/-- All stops of every built-in (or fallen-back) ramp lie in `[0,1]`. -/
theorem getRamp_stops_in_unit (name : String) :
    ∀ s ∈ getRamp name, 0 ≤ s.1 ∧ s.1 ≤ 1 := by
  intro s hs
  unfold getRamp at hs
  split at hs <;> [skip; split at hs] <;> [skip; skip; split at hs] <;>
    simp [terrainRamp, desertRamp, grayscaleRamp] at hs <;>
    rcases hs with rfl | rfl | rfl | rfl | rfl | rfl | rfl | rfl <;> norm_num

/-- C10: a cell whose elevation is strictly outside `[0,1]` matches no
bracketing stop pair, so `generate_texture` leaves the zero-initialized
pixel: the output at that cell is black `(0,0,0)`, without error and
without clamping. -/
theorem texture_out_of_range_black (name : String) (hm : Grid) (y x : ℕ)
    (v : ℚ) (hcell : cellAt hm y x = some v) (hout : v < 0 ∨ 1 < v) :
    texAt (generate_texture hm name) y x = some (0, 0, 0) := by
  rw [texAt_generate_texture, hcell, Option.map_some']
  have hnone := rampLookup_out_of_range v hout (getRamp name)
    (getRamp_stops_in_unit name)
  simp [texturePixel, hnone]

/-- C10 witness: a single out-of-range cell. -/
theorem texture_out_of_range_black_witness :
    cellAt [[(3/2 : ℚ)]] 0 0 = some (3/2) ∧
      ((3/2 : ℚ) < 0 ∨ 1 < (3/2 : ℚ)) ∧
      texAt (generate_texture [[(3/2 : ℚ)]] "terrain") 0 0 = some (0, 0, 0) :=
  ⟨rfl, Or.inr (by norm_num),
    texture_out_of_range_black "terrain" [[(3/2 : ℚ)]] 0 0 (3/2) rfl
      (Or.inr (by norm_num))⟩

/-! ### C7 — coastal masking boundary -/

/-- C7: on a 100×100 heightmap with `distance_to_coast = 0.1`, an edge
cell (edge distance 0) gets mask 0.1 and hence factor `0.37` of its
pre-mask (clamped) value, a deep-interior cell (edge distance ≥ 10)
gets mask 1.0 and keeps its value; with `distance_to_coast = 0.9` the
attenuation is not applied at all and the mask itself is 1.0
everywhere. -/
theorem coastal_mask_boundary (g : Grid)
    (hrows : gRows g = 100) (hcols : gCols g = 100) (y x : ℕ)
    (hy : y < 100) (hx : x < 100) :
    (minEdgeDist 100 100 y x = 0 →
       coastalMaskAt 100 100 (1/10) y x = 1/10 ∧
       cellAt (coastalStage pCoast g) y x =
         (cellAt g y x).map (· * (37/100))) ∧
    (10 ≤ minEdgeDist 100 100 y x →
       coastalMaskAt 100 100 (1/10) y x = 1 ∧
       cellAt (coastalStage pCoast g) y x = cellAt g y x) ∧
    coastalStage pInland g = g ∧
    coastalMaskAt 100 100 (9/10) y x = 1 := by
  have hstage : coastalStage pCoast g =
      gmapIdx (fun y x v =>
        v * (3/10 + coastalMaskAt 100 100 (1/10) y x * (7/10))) g := by
    unfold coastalStage
    rw [if_pos (by norm_num [pCoast, defaultParams, postInit])]
    rw [hrows, hcols]
    rfl
  refine ⟨?_, ?_, ?_, ?_⟩
  · intro hd
    have hmask : coastalMaskAt 100 100 (1/10) y x = 1/10 := by
      unfold coastalMaskAt
      rw [hd]
      norm_num
    refine ⟨hmask, ?_⟩
    rw [hstage, cellAt_gmapIdx, hmask]
    cases cellAt g y x <;> simp <;> norm_num
  · intro hd
    have hmask : coastalMaskAt 100 100 (1/10) y x = 1 := by
      unfold coastalMaskAt
      have h10 : (10 : ℚ) ≤ ((minEdgeDist 100 100 y x : ℤ) : ℚ) := by
        exact_mod_cast hd
      simp only [min_self]
      rw [if_pos (by norm_num), if_neg, if_neg]
      · push_cast
        intro hlt
        linarith
      · push_cast
        intro hlt
        linarith
    refine ⟨hmask, ?_⟩
    rw [hstage, cellAt_gmapIdx, hmask]
    cases cellAt g y x <;> simp <;> ring_nf
  · unfold coastalStage
    rw [if_neg (by norm_num [pInland, defaultParams, postInit])]
  · unfold coastalMaskAt
    rw [if_neg (by norm_num), if_pos (by norm_num)]

/-- C7 witness: the corner and the center of a flat 100×100 map. -/
theorem coastal_mask_boundary_witness :
    gRows hmFlat100 = 100 ∧ gCols hmFlat100 = 100 ∧ (0 : ℕ) < 100 ∧
      (minEdgeDist 100 100 0 0 = 0 →
        coastalMaskAt 100 100 (1/10) 0 0 = 1/10 ∧
        cellAt (coastalStage pCoast hmFlat100) 0 0 =
          (cellAt hmFlat100 0 0).map (· * (37/100))) :=
  ⟨rfl, rfl, by norm_num,
    ((coastal_mask_boundary hmFlat100 rfl rfl 0 0 (by norm_num)
      (by norm_num)).1)⟩

/-! ### C6 — erosion guard frame conditions -/

/-- C6: in each erosion pass, zero precipitation or zero river
intensity disables the hydraulic sub-stage (the heightmap passes
through unchanged, every change coming from the other sub-stages), and
zero wind intensity or precipitation ≥ 0.4 disables the wind
sub-stage. -/
theorem erosion_guard_frame {κ : Type} (ops : Ops κ) (p : TerrainParams)
    (climate hm : Grid) :
    (p.precipitation = 0 ∨ p.river_intensity = 0 →
       hydroStep ops p climate hm = hm ∧
       erosionPass ops p climate hm = windStep p (thermalStep ops p hm)) ∧
    (p.wind_intensity = 0 ∨ 2/5 ≤ p.precipitation →
       (∀ g : Grid, windStep p g = g) ∧
       erosionPass ops p climate hm =
         thermalStep ops p (hydroStep ops p climate hm)) := by
  constructor
  · intro h
    have hh : hydroStep ops p climate hm = hm := by
      unfold hydroStep
      rcases h with h | h
      · rw [if_neg]; rintro ⟨h1, _⟩; rw [h] at h1; norm_num at h1
      · rw [if_neg]; rintro ⟨_, h2⟩; rw [h] at h2; norm_num at h2
    exact ⟨hh, by unfold erosionPass; rw [hh]⟩
  · intro h
    have hw : ∀ g : Grid, windStep p g = g := by
      intro g
      unfold windStep
      rcases h with h | h
      · rw [if_neg]; rintro ⟨h1, _⟩; rw [h] at h1; norm_num at h1
      · rw [if_neg]; rintro ⟨_, h2⟩; linarith
    exact ⟨hw, by unfold erosionPass; rw [hw]⟩

/-- C6 witness: parameters with zero precipitation and zero wind. -/
theorem erosion_guard_frame_witness :
    hydroStep cOps pQuiet (gconst 2 2 (3/5)) hmSmall = hmSmall ∧
      windStep pQuiet hmSmall = hmSmall :=
  ⟨((erosion_guard_frame cOps pQuiet (gconst 2 2 (3/5)) hmSmall).1
      (Or.inl rfl)).1,
    ((erosion_guard_frame cOps pQuiet (gconst 2 2 (3/5)) hmSmall).2
      (Or.inl rfl)).1 hmSmall⟩

/-! ### C1 — determinism given an explicit seed -/

/-- C1: with an explicit seed the pipeline never consults the unseeded
system source — `_init_random` seeds the single random source from
`params.seed`, and every downstream stochastic step draws from it — so
two runs with the same record produce identical heightmaps whatever the
system entropy happens to be. -/
theorem seeded_run_deterministic {κ : Type} (ops : Ops κ)
    (p : TerrainParams) (s : ℤ) (hs : p.seed = some s) (e1 e2 : ℤ) :
    generateTerrain ops e1 p = generateTerrain ops e2 p := by
  unfold generateTerrain generate_tectonic_base
  rw [hs]
  rfl

/-- C1 witness: a seeded 2×2 run under two different entropy values. -/
theorem seeded_run_deterministic_witness :
    pQuiet.seed = some 42 ∧
      generateTerrain cOps 0 pQuiet = generateTerrain cOps 1 pQuiet :=
  ⟨rfl, seeded_run_deterministic cOps pQuiet 42 rfl 0 1⟩

/-! ### C2 — rescale-to-[0,1] invariant (corrected) -/

theorem gmap_flatten (f : ℚ → ℚ) (g : Grid) :
    (gmap f g).flatten = g.flatten.map f := by
  unfold gmap
  induction g with
  | nil => rfl
  | cons r t ih =>
      simp only [List.map_cons, List.flatten_cons, List.map_append, ih]

theorem foldl_min_map (f : ℚ → ℚ) (hf : Monotone f) :
    ∀ (xs : List ℚ) (x : ℚ),
      (xs.map f).foldl min (f x) = f (xs.foldl min x) := by
  intro xs
  induction xs with
  | nil => intro x; rfl
  | cons y ys ih =>
      intro x
      simp only [List.map_cons, List.foldl_cons]
      rw [← hf.map_min, ih]

theorem foldl_max_map (f : ℚ → ℚ) (hf : Monotone f) :
    ∀ (xs : List ℚ) (x : ℚ),
      (xs.map f).foldl max (f x) = f (xs.foldl max x) := by
  intro xs
  induction xs with
  | nil => intro x; rfl
  | cons y ys ih =>
      intro x
      simp only [List.map_cons, List.foldl_cons]
      rw [← hf.map_max, ih]

/-- Bounds of the epsilon-guarded rescale: on a field whose range is at
least `1e-4`, the rescaled minimum is exactly 0 and the rescaled
maximum is `range/(range + 1e-8) ∈ [1 - 1e-4, 1]`. -/
theorem normEps_bounds (g : Grid) (h : 1/10000 ≤ gridRange g) :
    gridMin (normEps g) = 0 ∧
      1 - 1/10000 ≤ gridMax (normEps g) ∧ gridMax (normEps g) ≤ 1 := by
  have hD : 1/10000 ≤ gridMax g - gridMin g := h
  have hpos : 0 < gridMax g - gridMin g + 1/100000000 := by linarith
  set f : ℚ → ℚ := fun v => (v - gridMin g) / (gridMax g - gridMin g + 1/100000000)
    with hf
  have hmono : Monotone f := by
    intro u w huw
    exact (div_le_div_right hpos).mpr (by linarith)
  obtain ⟨a, as, hcons⟩ : ∃ a as, g.flatten = a :: as := by
    cases hfl : g.flatten with
    | nil =>
        exfalso
        have : gridRange g = 0 := by
          simp [gridRange, gridMin, gridMax, hfl, lmin, lmax]
        rw [this] at h
        norm_num at h
    | cons a as => exact ⟨a, as, rfl⟩
  have hflat : (normEps g).flatten = g.flatten.map f := gmap_flatten f g
  have hminval : gridMin (normEps g) = f (gridMin g) := by
    unfold gridMin
    rw [hflat, hcons, List.map_cons]
    show (List.map f as).foldl min (f a) = f (lmin (a :: as))
    rw [foldl_min_map f hmono]
    rfl
  have hmaxval : gridMax (normEps g) = f (gridMax g) := by
    unfold gridMax
    rw [hflat, hcons, List.map_cons]
    show (List.map f as).foldl max (f a) = f (lmax (a :: as))
    rw [foldl_max_map f hmono]
    rfl
  refine ⟨?_, ?_, ?_⟩
  · rw [hminval, hf]
    simp
  · rw [hmaxval, hf]
    rw [le_div_iff hpos]
    ring_nf
    linarith
  · rw [hmaxval, hf]
    rw [div_le_one hpos]
    linarith

/-- C2 amended: the erosion stage and post-processing do end with the
`(x - min)/(max - min + 1e-8)` rescale, so their outputs have minimum
exactly 0 and maximum within `1e-4` of 1 whenever the pre-rescale field
has range at least `1e-4` — but the tectonic-base stage has no such
final rescale (see the counterexample). -/
theorem rescale_stage_bounds {κ : Type} (ops : Ops κ) (hm : Grid)
    (p : TerrainParams) (climate : Grid) (regions : RGrid) (r : κ)
    (h1 : 1/10000 ≤ gridRange (erosionPre ops hm p climate))
    (h2 : 1/10000 ≤ gridRange (postPre ops r hm p).1) :
    (gridMin (simulate_erosion ops hm p climate regions) = 0 ∧
       1 - 1/10000 ≤ gridMax (simulate_erosion ops hm p climate regions) ∧
       gridMax (simulate_erosion ops hm p climate regions) ≤ 1) ∧
    (gridMin (post_process ops r hm p).1 = 0 ∧
       1 - 1/10000 ≤ gridMax (post_process ops r hm p).1 ∧
       gridMax (post_process ops r hm p).1 ≤ 1) :=
  ⟨normEps_bounds _ h1, normEps_bounds _ h2⟩

set_option maxRecDepth 100000 in
/-- C2 witness: a 2×2 run in which every erosion sub-stage is guarded
off, so both pre-rescale fields are concrete and non-degenerate. -/
theorem rescale_stage_bounds_witness :
    (1/10000 ≤ gridRange (erosionPre cOps hmSmall pQuiet (gconst 2 2 (3/5))) ∧
       1/10000 ≤ gridRange (postPre cOps 0 hmSmall pQuiet).1) ∧
      gridMin (simulate_erosion cOps hmSmall pQuiet (gconst 2 2 (3/5))
        [[0, 0], [0, 0]]) = 0 :=
  have hh1 : 1/10000 ≤ gridRange (erosionPre cOps hmSmall pQuiet (gconst 2 2 (3/5))) := by
    with_unfolding_all decide
  have hh2 : 1/10000 ≤ gridRange (postPre cOps 0 hmSmall pQuiet).1 := by
    with_unfolding_all decide
  ⟨⟨hh1, hh2⟩,
    ((rescale_stage_bounds cOps hmSmall pQuiet (gconst 2 2 (3/5))
      [[0, 0], [0, 0]] 0 hh1 hh2).1).1⟩

set_option maxRecDepth 400000 in
/-- C2 counterexample: a concrete stable-pattern run (full uplift, zero
rock hardness) whose tectonic base is non-constant — so the input is
non-degenerate — with minimum 0 but maximum 17/20 = 0.85: after the
hardness and uplift multiplications `generate_tectonic_base` performs
no rescale, so its maximum stays away from 1. -/
theorem tectonic_base_not_rescaled :
    gridMin (generate_tectonic_base cOps 0 pStable).1 = 0 ∧
      0 < gridRange (generate_tectonic_base cOps 0 pStable).1 ∧
      gridMax (generate_tectonic_base cOps 0 pStable).1 = 17/20 ∧
      ¬ 9/10 ≤ gridMax (generate_tectonic_base cOps 0 pStable).1 := by
  with_unfolding_all decide

/-! ### C3 — region partition coverage (corrected) -/

theorem placeCenters_length {κ : Type} (ops : Ops κ) (p : TerrainParams) :
    ∀ (n : ℕ) (r : κ), (placeCenters ops p n r).1.length = n := by
  intro n
  induction n with
  | zero => intro r; rfl
  | succ m ih =>
      intro r
      unfold placeCenters
      simp [ih]

theorem regionPerturbs_map_fst {κ : Type} (ops : Ops κ) (p : TerrainParams) :
    ∀ (cs : List (ℤ × ℤ)) (r : κ),
      (regionPerturbs ops p cs r).1.map Prod.fst = cs := by
  intro cs
  induction cs with
  | nil => intro r; rfl
  | cons c rest ih =>
      intro r
      unfold regionPerturbs
      split <;> simp [ih]

theorem regionPerturbs_pert_none {κ : Type} (ops : Ops κ)
    (p : TerrainParams) (hc : p.region_contrast ≤ 3/10) :
    ∀ (cs : List (ℤ × ℤ)) (r : κ) (e : (ℤ × ℤ) × Option Grid),
      e ∈ (regionPerturbs ops p cs r).1 → e.2 = none := by
  intro cs
  induction cs with
  | nil => intro r e he; simp [regionPerturbs] at he
  | cons c rest ih =>
      intro r e he
      unfold regionPerturbs at he
      rw [if_neg (not_lt.mpr hc)] at he
      simp only [List.mem_cons] at he
      rcases he with rfl | he
      · rfl
      · exact ih r e he

theorem assignFold_fst {l : List (ℕ × ℚ)} :
    ∀ st : ℕ × Option ℚ,
      (l.foldl assignStep st).1 = st.1 ∨
        (l.foldl assignStep st).1 ∈ l.map Prod.fst := by
  induction l with
  | nil => intro st; exact Or.inl rfl
  | cons e t ih =>
      intro st
      rw [List.foldl_cons]
      rcases ih (assignStep st e) with h | h
      · rw [h]
        cases hst : st.2 with
        | none =>
            simp only [assignStep, hst]
            exact Or.inr (by simp)
        | some c =>
            by_cases hlt : e.2 < c
            · simp only [assignStep, hst, if_pos hlt]
              exact Or.inr (by simp)
            · simp only [assignStep, hst, if_neg hlt]
              exact Or.inl trivial
      · refine Or.inr ?_
        rw [List.map_cons]
        exact List.mem_cons_of_mem _ h

theorem assignFold_pos {l : List (ℕ × ℚ)} :
    ∀ st : ℕ × Option ℚ,
      (∀ e ∈ l, 0 < e.2) → (∀ c, st.2 = some c → 0 < c) →
      ∀ c, (l.foldl assignStep st).2 = some c → 0 < c := by
  induction l with
  | nil => intro st _ hst c hc; exact hst c hc
  | cons e t ih =>
      intro st hl hst c hc
      rw [List.foldl_cons] at hc
      refine ih (assignStep st e)
        (fun z hz => hl z (List.mem_cons_of_mem _ hz)) ?_ c hc
      intro c2 hc2
      cases hss : st.2 with
      | none =>
          simp only [assignStep, hss] at hc2
          injection hc2 with hc2
          rw [← hc2]
          exact hl e (List.mem_cons_self _ _)
      | some c0 =>
          simp only [assignStep, hss] at hc2
          by_cases hlt : e.2 < c0
          · rw [if_pos hlt] at hc2
            injection hc2 with hc2
            rw [← hc2]
            exact hl e (List.mem_cons_self _ _)
          · rw [if_neg hlt] at hc2
            exact hst c2 hc2

theorem assignFold_frozen {l : List (ℕ × ℚ)} :
    ∀ st : ℕ × Option ℚ, st.2 = some 0 → (∀ e ∈ l, 0 ≤ e.2) →
      l.foldl assignStep st = st := by
  induction l with
  | nil => intro st _ _; rfl
  | cons e t ih =>
      intro st hst hl
      rw [List.foldl_cons]
      have hstep : assignStep st e = st := by
        simp only [assignStep, hst]
        rw [if_neg (not_lt.mpr (hl e (List.mem_cons_self _ _)))]
      rw [hstep]
      exact ih st hst fun z hz => hl z (List.mem_cons_of_mem _ hz)

theorem assignCell_split (l1 l2 : List (ℕ × ℚ)) (v : ℕ)
    (h1 : ∀ e ∈ l1, 0 < e.2) (h2 : ∀ e ∈ l2, 0 ≤ e.2) :
    (assignCell (l1 ++ (v, (0 : ℚ)) :: l2)).1 = v := by
  unfold assignCell
  rw [List.foldl_append, List.foldl_cons]
  have hpos : ∀ c, (l1.foldl assignStep ((0 : ℕ), (none : Option ℚ))).2 = some c → 0 < c :=
    assignFold_pos ((0 : ℕ), (none : Option ℚ)) h1 (by intro c hc; cases hc)
  have hstep : assignStep (l1.foldl assignStep ((0 : ℕ), (none : Option ℚ))) (v, 0) =
      (v, some 0) := by
    cases hss : (l1.foldl assignStep ((0 : ℕ), (none : Option ℚ))).2 with
    | none => simp only [assignStep, hss]
    | some c =>
        simp only [assignStep, hss]
        rw [if_pos (hpos c hss)]
  rw [hstep, assignFold_frozen (v, some 0) rfl h2]

theorem mem_take_idx {α : Type} :
    ∀ (l : List α) (n : ℕ) (e : α), e ∈ l.take n →
      ∃ i, i < n ∧ l.get? i = some e := by
  intro l
  induction l with
  | nil => intro n e he; simp at he
  | cons a t ih =>
      intro n e he
      cases n with
      | zero => simp at he
      | succ m =>
          rw [List.take_succ_cons] at he
          rcases List.mem_cons.mp he with rfl | he2
          · exact ⟨0, Nat.succ_pos m, rfl⟩
          · obtain ⟨i, hi, hg⟩ := ih m e he2
            exact ⟨i + 1, Nat.succ_lt_succ hi, hg⟩

theorem mem_drop_idx {α : Type} :
    ∀ (l : List α) (n : ℕ) (e : α), e ∈ l.drop n →
      ∃ i, n ≤ i ∧ l.get? i = some e := by
  intro l
  induction l with
  | nil => intro n e he; simp at he
  | cons a t ih =>
      intro n e he
      cases n with
      | zero =>
          rw [List.drop_zero] at he
          obtain ⟨i, hg⟩ := List.mem_iff_get?.mp he
          exact ⟨i, Nat.zero_le i, hg⟩
      | succ m =>
          rw [List.drop_succ_cons] at he
          obtain ⟨i, hi, hg⟩ := ih m e he
          exact ⟨i + 1, Nat.succ_le_succ hi, hg⟩

theorem entriesAt_get? {κ : Type} (ops : Ops κ)
    (rd : List ((ℤ × ℤ) × Option Grid)) (y x j : ℕ) :
    (entriesAt ops rd y x).get? j =
      (rd.get? j).map fun e => (j, distTo ops e.1 e.2 y x) := by
  unfold entriesAt
  rw [List.get?_map, List.get?_enum]
  cases rd.get? j <;> rfl

theorem entriesAt_length {κ : Type} (ops : Ops κ)
    (rd : List ((ℤ × ℤ) × Option Grid)) (y x : ℕ) :
    (entriesAt ops rd y x).length = rd.length := by
  unfold entriesAt
  rw [List.length_map, List.enum_length]

theorem distTo_pos {κ : Type} (ops : Ops κ)
    (hspos : ∀ q : ℚ, 0 < q → 0 < ops.sqrt q) (c : ℤ × ℤ) (y x : ℕ)
    (hne : c ≠ ((x : ℤ), (y : ℤ))) :
    0 < distTo ops c none y x := by
  unfold distTo
  rw [add_zero]
  apply hspos
  have h1 : c.1 ≠ (x : ℤ) ∨ c.2 ≠ (y : ℤ) := by
    by_contra hcon
    push_neg at hcon
    exact hne (Prod.ext hcon.1 hcon.2)
  rcases h1 with h1 | h1
  · have hne2 : (((x : ℤ) - c.1 : ℤ) : ℚ) ≠ 0 := by
      simp only [ne_eq, Int.cast_eq_zero, sub_eq_zero]
      exact fun hh => h1 hh.symm
    exact add_pos_of_pos_of_nonneg (pow_two_pos_of_ne_zero hne2) (sq_nonneg _)
  · have hne2 : (((y : ℤ) - c.2 : ℤ) : ℚ) ≠ 0 := by
      simp only [ne_eq, Int.cast_eq_zero, sub_eq_zero]
      exact fun hh => h1 hh.symm
    exact add_pos_of_nonneg_of_pos (sq_nonneg _) (pow_two_pos_of_ne_zero hne2)

theorem distTo_self {κ : Type} (ops : Ops κ) (hs0 : ops.sqrt 0 = 0)
    (c : ℤ × ℤ) (y x : ℕ) (hx : (x : ℤ) = c.1) (hy : (y : ℤ) = c.2) :
    distTo ops c none y x = 0 := by
  unfold distTo
  rw [hx, hy]
  simp [hs0]

theorem rcell_flatten {g : RGrid} {y x v : ℕ}
    (h : rcell g y x = some v) : v ∈ g.flatten := by
  unfold rcell at h
  cases hrow : g.get? y with
  | none => rw [hrow] at h; cases h
  | some row =>
      rw [hrow] at h
      exact List.mem_flatten.mpr ⟨row, List.get?_mem hrow, List.get?_mem h⟩

/-- Core Voronoi fact: with pairwise-distinct centers and no
perturbation, the cell at center `v` resolves to region `v` — its own
distance is `sqrt 0 = 0`, every other distance is positive, and the
strict-`<` fold keeps the first zero. -/
theorem assignCell_center {κ : Type} (ops : Ops κ)
    (hs0 : ops.sqrt 0 = 0) (hspos : ∀ q : ℚ, 0 < q → 0 < ops.sqrt q)
    (rd : List ((ℤ × ℤ) × Option Grid)) (cs : List (ℤ × ℤ))
    (hfst : rd.map Prod.fst = cs)
    (hnone : ∀ e ∈ rd, e.2 = none)
    (hnodup : cs.Nodup)
    (v : ℕ) (hv : v < cs.length) (y x : ℕ)
    (hxc : (x : ℤ) = (cs.get ⟨v, hv⟩).1) (hyc : (y : ℤ) = (cs.get ⟨v, hv⟩).2) :
    (assignCell (entriesAt ops rd y x)).1 = v := by
  have hrdlen : rd.length = cs.length := by rw [← hfst, List.length_map]
  have hvrd : v < rd.length := by rw [hrdlen]; exact hv
  -- the element of rd behind any index, and its center
  have hgetc : ∀ (i : ℕ) (hi : i < rd.length) (e : (ℤ × ℤ) × Option Grid),
      rd.get? i = some e → e.1 = cs.get ⟨i, by rw [← hrdlen]; exact hi⟩ := by
    intro i hi e hge
    have h1 : (rd.map Prod.fst).get? i = some e.1 := by
      rw [List.get?_map, hge]; rfl
    rw [hfst, List.get?_eq_get (by rw [← hrdlen]; exact hi)] at h1
    injection h1 with h1
    exact h1.symm
  -- every entry with index ≠ v has positive distance
  have hposidx : ∀ (i : ℕ), i < rd.length → i ≠ v →
      ∀ e ∈ (entriesAt ops rd y x).get? i, 0 < e.2 := by
    intro i hi hne e hgi
    simp only [Option.mem_def] at hgi
    obtain ⟨ei, hei⟩ : ∃ e2, rd.get? i = some e2 := by
      cases hg : rd.get? i with
      | none => exact absurd (List.get?_eq_none.mp hg) (by omega)
      | some e2 => exact ⟨e2, rfl⟩
    rw [entriesAt_get?, hei, Option.map_some'] at hgi
    injection hgi with hgi
    rw [← hgi]
    have heinone : ei.2 = none := hnone ei (List.get?_mem hei)
    show 0 < distTo ops ei.1 ei.2 y x
    rw [heinone]
    apply distTo_pos ops hspos
    intro hcontra
    have hic : ei.1 = cs.get ⟨i, by rw [← hrdlen]; exact hi⟩ := hgetc i hi ei hei
    have hvc : ((x : ℤ), (y : ℤ)) = cs.get ⟨v, hv⟩ := Prod.ext hxc hyc
    have : cs.get ⟨i, by rw [← hrdlen]; exact hi⟩ = cs.get ⟨v, hv⟩ := by
      rw [← hic, hcontra, hvc]
    have := (hnodup.get_inj_iff.mp this)
    simp only [Fin.mk.injEq] at this
    exact hne this
  -- the entry at index v is (v, 0)
  obtain ⟨ev, hev⟩ : ∃ e, rd.get? v = some e := by
    cases hg : rd.get? v with
    | none => exact absurd (List.get?_eq_none.mp hg) (by omega)
    | some e => exact ⟨e, rfl⟩
  have hevnone : ev.2 = none := hnone ev (List.get?_mem hev)
  have hventries : v < (entriesAt ops rd y x).length := by
    rw [entriesAt_length]; exact hvrd
  have hentv : (entriesAt ops rd y x).get? v = some (v, (0 : ℚ)) := by
    rw [entriesAt_get?, hev, Option.map_some']
    have : distTo ops ev.1 ev.2 y x = 0 := by
      rw [hevnone, hgetc v hvrd ev hev]
      exact distTo_self ops hs0 _ y x hxc hyc
    rw [this]
  -- split the entry list around index v
  have hsplit : entriesAt ops rd y x =
      (entriesAt ops rd y x).take v ++ (v, (0 : ℚ)) ::
        (entriesAt ops rd y x).drop (v + 1) := by
    conv_lhs => rw [← List.take_append_drop v (entriesAt ops rd y x)]
    congr 1
    rw [List.drop_eq_getElem_cons hventries]
    congr 1
    have h1 : (entriesAt ops rd y x).get? v =
        some ((entriesAt ops rd y x)[v]) := by
      rw [List.get?_eq_getElem?, List.getElem?_eq_getElem hventries]
    rw [hentv] at h1
    injection h1 with h1
    exact h1.symm
  rw [hsplit]
  apply assignCell_split
  · intro e he
    obtain ⟨i, hiv, hgi⟩ := mem_take_idx _ v e he
    have hilen : i < (entriesAt ops rd y x).length := by
      cases hg : (entriesAt ops rd y x).get? v
      all_goals
        by_contra hcon
        rw [List.get?_eq_none.mpr (by omega)] at hgi
        cases hgi
    exact hposidx i (by rw [← entriesAt_length ops rd y x]; exact hilen)
      (by omega) e hgi
  · intro e he
    obtain ⟨i, hiv, hgi⟩ := mem_drop_idx _ (v + 1) e he
    have hilen : i < (entriesAt ops rd y x).length := by
      by_contra hcon
      rw [List.get?_eq_none.mpr (by omega)] at hgi
      cases hgi
    exact le_of_lt (hposidx i
      (by rw [← entriesAt_length ops rd y x]; exact hilen) (by omega) e hgi)

theorem generate_regions_cell {κ : Type} (ops : Ops κ) (r : κ)
    (p : TerrainParams) (hN : p.num_regions ≠ 1) (y x : ℕ)
    (hy : y < (sizeGet p 1).toNat) (hx : x < (sizeGet p 0).toNat) :
    rcell (generate_regions ops r p).1 y x =
      some (assignCell (entriesAt ops
        (regionPerturbs ops p (placeCenters ops p p.num_regions.toNat r).1
          (placeCenters ops p p.num_regions.toNat r).2).1 y x)).1 := by
  unfold generate_regions rcell
  rw [if_neg hN]
  simp [List.get?_map, List.get?_range, hy, hx]

theorem generate_regions_cell_inv {κ : Type} (ops : Ops κ) (r : κ)
    (p : TerrainParams) (hN : p.num_regions ≠ 1) (y x w : ℕ)
    (hcell : rcell (generate_regions ops r p).1 y x = some w) :
    w = (assignCell (entriesAt ops
      (regionPerturbs ops p (placeCenters ops p p.num_regions.toNat r).1
        (placeCenters ops p p.num_regions.toNat r).2).1 y x)).1 := by
  unfold generate_regions rcell at hcell
  rw [if_neg hN] at hcell
  by_cases hy : y < (sizeGet p 1).toNat
  · by_cases hx : x < (sizeGet p 0).toNat
    · simp [List.get?_map, List.get?_range, hy, hx] at hcell
      exact hcell.symm
    · exfalso
      have hxe : (List.range (sizeGet p 0).toNat)[x]? = none := by
        rw [List.getElem?_eq_none_iff]
        simpa using Nat.le_of_not_lt hx
      simp [List.get?_map, List.get?_range, hy, hxe] at hcell
  · exfalso
    have hye : (List.range (sizeGet p 1).toNat)[y]? = none := by
      rw [List.getElem?_eq_none_iff]
      simpa using Nat.le_of_not_lt hy
    simp [List.get?_eq_getElem?, hye] at hcell

/-- C3 amended: without the noise perturbation
(`region_contrast ≤ 0.3`), and provided the placed centers are pairwise
distinct and inside the map (which rejection sampling normally
guarantees), the region map's distinct values are exactly
`{0, …, N-1}`: every region claims the pixel at its own center. With
`region_contrast > 0.3` the perturbed distances can leave a region with
no cell at all (see the counterexample). The `sqrt` hypotheses pin the
library square root at the two properties the argument uses. -/
theorem regions_cover_iff {κ : Type} (ops : Ops κ) (r : κ)
    (p : TerrainParams) (hN : 1 < p.num_regions)
    (hc : p.region_contrast ≤ 3/10)
    (hs0 : ops.sqrt 0 = 0)
    (hspos : ∀ q : ℚ, 0 < q → 0 < ops.sqrt q)
    (hnodup : (placeCenters ops p p.num_regions.toNat r).1.Nodup)
    (hbound : ∀ c ∈ (placeCenters ops p p.num_regions.toNat r).1,
      0 ≤ c.1 ∧ c.1 < sizeGet p 0 ∧ 0 ≤ c.2 ∧ c.2 < sizeGet p 1) :
    ∀ v : ℕ,
      (∃ y x, rcell (generate_regions ops r p).1 y x = some v) ↔
        v < p.num_regions.toNat := by
  have hN1 : p.num_regions ≠ 1 := by omega
  have hN2 : 2 ≤ p.num_regions.toNat := by omega
  have hlen : (placeCenters ops p p.num_regions.toNat r).1.length =
      p.num_regions.toNat := placeCenters_length ops p _ r
  have hfst : (regionPerturbs ops p
      (placeCenters ops p p.num_regions.toNat r).1
      (placeCenters ops p p.num_regions.toNat r).2).1.map Prod.fst =
      (placeCenters ops p p.num_regions.toNat r).1 :=
    regionPerturbs_map_fst ops p _ _
  have hrdlen : (regionPerturbs ops p
      (placeCenters ops p p.num_regions.toNat r).1
      (placeCenters ops p p.num_regions.toNat r).2).1.length =
      p.num_regions.toNat := by
    have hh := congrArg List.length hfst
    rw [List.length_map] at hh
    rw [hh, hlen]
  have hnone : ∀ e ∈ (regionPerturbs ops p
      (placeCenters ops p p.num_regions.toNat r).1
      (placeCenters ops p p.num_regions.toNat r).2).1, e.2 = none :=
    fun e he => regionPerturbs_pert_none ops p hc _ _ e he
  intro v
  constructor
  · rintro ⟨y, x, hcell⟩
    have hval := generate_regions_cell_inv ops r p hN1 y x v hcell
    rcases assignFold_fst (l := entriesAt ops (regionPerturbs ops p
        (placeCenters ops p p.num_regions.toNat r).1
        (placeCenters ops p p.num_regions.toNat r).2).1 y x)
        ((0 : ℕ), (none : Option ℚ)) with h0 | hmem
    · rw [hval]
      unfold assignCell
      rw [h0]
      omega
    · have hids : (entriesAt ops (regionPerturbs ops p
          (placeCenters ops p p.num_regions.toNat r).1
          (placeCenters ops p p.num_regions.toNat r).2).1 y x).map Prod.fst =
          List.range (regionPerturbs ops p
            (placeCenters ops p p.num_regions.toNat r).1
            (placeCenters ops p p.num_regions.toNat r).2).1.length := by
        unfold entriesAt
        rw [List.map_map]
        exact List.enum_map_fst _
      rw [hids, hrdlen] at hmem
      rw [hval]
      unfold assignCell
      exact List.mem_range.mp hmem
  · intro hv
    have hvcs : v < (placeCenters ops p p.num_regions.toNat r).1.length := by
      rw [hlen]; exact hv
    obtain ⟨hc1, hc2, hc3, hc4⟩ := hbound _ (List.get_mem _ v hvcs)
    have hxc : (((placeCenters ops p p.num_regions.toNat r).1.get
        ⟨v, hvcs⟩).1.toNat : ℤ) =
        ((placeCenters ops p p.num_regions.toNat r).1.get ⟨v, hvcs⟩).1 :=
      Int.toNat_of_nonneg hc1
    have hyc : (((placeCenters ops p p.num_regions.toNat r).1.get
        ⟨v, hvcs⟩).2.toNat : ℤ) =
        ((placeCenters ops p p.num_regions.toNat r).1.get ⟨v, hvcs⟩).2 :=
      Int.toNat_of_nonneg hc3
    refine ⟨((placeCenters ops p p.num_regions.toNat r).1.get ⟨v, hvcs⟩).2.toNat,
      ((placeCenters ops p p.num_regions.toNat r).1.get ⟨v, hvcs⟩).1.toNat, ?_⟩
    rw [generate_regions_cell ops r p hN1 _ _ (by omega) (by omega)]
    exact congrArg some (assignCell_center ops hs0 hspos _ _ hfst hnone hnodup
      v hvcs _ _ hxc hyc)

set_option maxRecDepth 400000 in
/-- C3 counterexample: a 6×2 map with two regions at the default
`region_contrast = 0.6`. The second region's perturbation noise field
(a possible constant `randn` draw) exceeds the first region's perturbed
distances everywhere, so region id 1 claims no cell: the distinct
values are `{0}`, not `{0, 1}`. -/
theorem region_one_empty :
    1 < pRegions.num_regions ∧ (1 : ℕ) < pRegions.num_regions.toNat ∧
      3/10 < pRegions.region_contrast ∧
      ∀ y x, rcell (generate_regions kOps 0 pRegions).1 y x ≠ some 1 := by
  refine ⟨by decide, by decide, by with_unfolding_all decide, ?_⟩
  intro y x hcontra
  have hmem := rcell_flatten hcontra
  have hall : ((generate_regions kOps 0 pRegions).1.flatten.all
      fun v => v != 1) = true := by
    with_unfolding_all decide
  rw [List.all_eq_true] at hall
  have := hall 1 hmem
  simp at this

theorem ratSqrt_zero : ratSqrt 0 = 0 := by
  unfold ratSqrt
  rw [if_pos le_rfl]

theorem ratSqrt_pos {q : ℚ} (hq : 0 < q) : 0 < ratSqrt q := by
  unfold ratSqrt
  rw [if_neg (not_le.mpr hq)]
  apply div_pos
  · have hnum : 0 < q.num := Rat.num_pos.mpr hq
    have h1 : 0 < q.num.toNat * q.den := by
      have := q.pos
      have : 0 < q.num.toNat := by omega
      positivity
    have h2 : 0 < Nat.sqrt (q.num.toNat * q.den) := Nat.sqrt_pos.mpr h1
    exact_mod_cast h2
  · exact_mod_cast q.pos

set_option maxRecDepth 400000 in
/-- C3 witness: the same 6×2 two-region map at contrast 0.3 — the
concretely computed centers are distinct and in bounds, and the
theorem then gives distinct values exactly `{0, 1}`. -/
theorem regions_cover_iff_witness :
    (1 < pRegionsFlat.num_regions ∧
       pRegionsFlat.region_contrast ≤ 3/10 ∧
       (placeCenters cOps pRegionsFlat pRegionsFlat.num_regions.toNat 0).1.Nodup ∧
       (∀ c ∈ (placeCenters cOps pRegionsFlat
           pRegionsFlat.num_regions.toNat 0).1,
         0 ≤ c.1 ∧ c.1 < sizeGet pRegionsFlat 0 ∧
           0 ≤ c.2 ∧ c.2 < sizeGet pRegionsFlat 1)) ∧
      ((∃ y x, rcell (generate_regions cOps 0 pRegionsFlat).1 y x = some 1) ↔
        1 < pRegionsFlat.num_regions.toNat) :=
  have hcenters : (placeCenters cOps pRegionsFlat
      pRegionsFlat.num_regions.toNat 0).1 = [(1, 0), (3, 0)] := by
    with_unfolding_all decide
  have hnodup : (placeCenters cOps pRegionsFlat
      pRegionsFlat.num_regions.toNat 0).1.Nodup := by
    rw [hcenters]; decide
  have hbound : ∀ c ∈ (placeCenters cOps pRegionsFlat
      pRegionsFlat.num_regions.toNat 0).1,
      0 ≤ c.1 ∧ c.1 < sizeGet pRegionsFlat 0 ∧
        0 ≤ c.2 ∧ c.2 < sizeGet pRegionsFlat 1 := by
    rw [hcenters]; decide
  ⟨⟨by decide, by with_unfolding_all decide, hnodup, hbound⟩,
    regions_cover_iff cOps 0 pRegionsFlat (by decide)
      (by with_unfolding_all decide) ratSqrt_zero
      (fun q hq => ratSqrt_pos hq) hnodup hbound 1⟩

end OTT
